import Mathlib

/-!
Ignis driver interface: stream allocator, resource cache, stream layout, film.

A shallow embedding of `src/driver/interface.cpp`.  Machine integers are `Nat`/`Int` with
explicit reduction modulo `2 ^ 64`; device storage is identified by an allocation id.
-/

set_option autoImplicit false

namespace anydsl

/-- Header of an `anydsl::Array<T>` whose contents this layer never reads: the device, the
storage it owns (an allocation id, `0` for the null pointer) and the `int64_t` element count. -/
structure Array where
  dev : Int
  data : Nat
  size : Int
  deriving DecidableEq, Repr

/-- The default-constructed `anydsl::Array<T>()`: no storage, zero elements. -/
def Array.empty : Array := { dev := 0, data := 0, size := 0 }

end anydsl

namespace Ignis

/-- Conversion of a 64-bit pattern to `int64_t` (two's complement). -/
def toInt64 (n : Nat) : Int :=
  if n % 2 ^ 64 < 2 ^ 63 then ((n % 2 ^ 64 : Nat) : Int) else ((n % 2 ^ 64 : Nat) : Int) - 2 ^ 64

/-- Conversion of a signed integer to `size_t` (reduction modulo `2 ^ 64`). -/
def toSizeT (i : Int) : Nat := (i % 2 ^ 64).toNat

/-- The `size_t` value of `~((1 << 5) - 1)`: the `int` `-32` converted to 64 unsigned bits. -/
def roundMask : Nat := 2 ^ 64 - 32

/-- The capacity expression of `resize_array`:
`int64_t capacity = (size & ~((1 << 5) - 1)) + 32;` evaluated in `size_t` and stored as
`int64_t`. -/
def capacity (size : Nat) : Int := toInt64 (((size &&& roundMask) + 32) % 2 ^ 64)

/-- The call `anydsl_alloc(dev, bytes)`: hands out fresh storage.  The state is the number of
allocations made so far; the new allocation id is that count plus one (never the null id). -/
def anydsl_alloc (allocs : Nat) : Nat × Nat := (allocs + 1, allocs + 1)

/-- The member `Interface::resize_array(dev, array, size, multiplier)`, threading the
allocation count.  Returns the (possibly replaced) array and the new allocation count. -/
def resize_array (allocs : Nat) (dev : Int) (array : anydsl.Array) (size multiplier : Nat) :
    anydsl.Array × Nat :=
  let cap := capacity size
  if array.size < cap then
    let n := (toSizeT cap * multiplier) % 2 ^ 64
    let (p, allocs1) := anydsl_alloc allocs
    ({ dev := dev, data := p, size := toInt64 n }, allocs1)
  else
    (array, allocs)

/-- The spec's `roundUp32`: the smallest multiple of 32 that is greater than or equal to
the requested size. -/
def roundUp32 (s : Nat) : Nat := (s + 31) / 32 * 32

/-! ## Ray stream layout (`get_ray_stream`, `get_primary_stream`, `get_secondary_stream`)

Pointers are addresses counted in 4-byte elements (every field type is 4 bytes wide); the
offset `i * capacity` is a `size_t` product. -/

/-- The record `RayStream` of `generated_interface.h`, as used by `get_ray_stream`. -/
structure RayStream where
  id : Nat
  org_x : Nat
  org_y : Nat
  org_z : Nat
  dir_x : Nat
  dir_y : Nat
  dir_z : Nat
  tmin : Nat
  tmax : Nat
  deriving DecidableEq, Repr

/-- The record `PrimaryStream`, as used by `get_primary_stream`. -/
structure PrimaryStream where
  rays : RayStream
  geom_id : Nat
  prim_id : Nat
  t : Nat
  u : Nat
  v : Nat
  rnd : Nat
  mis : Nat
  contrib_r : Nat
  contrib_g : Nat
  contrib_b : Nat
  depth : Nat
  size : Int
  deriving DecidableEq, Repr

/-- The record `SecondaryStream`, as used by `get_secondary_stream`. -/
structure SecondaryStream where
  rays : RayStream
  prim_id : Nat
  color_r : Nat
  color_g : Nat
  color_b : Nat
  size : Int
  deriving DecidableEq, Repr

/-- The `size_t` product `i * capacity` of the layout functions. -/
def offset (i capacity : Nat) : Nat := (i * capacity) % 2 ^ 64

/-- The function `get_ray_stream(rays, ptr, capacity)`. -/
def get_ray_stream (rays : RayStream) (ptr capacity : Nat) : RayStream :=
  { rays with
    id := ptr + offset 0 capacity
    org_x := ptr + offset 1 capacity
    org_y := ptr + offset 2 capacity
    org_z := ptr + offset 3 capacity
    dir_x := ptr + offset 4 capacity
    dir_y := ptr + offset 5 capacity
    dir_z := ptr + offset 6 capacity
    tmin := ptr + offset 7 capacity
    tmax := ptr + offset 8 capacity }

/-- The function `get_primary_stream(primary, ptr, capacity)`. -/
def get_primary_stream (primary : PrimaryStream) (ptr capacity : Nat) : PrimaryStream :=
  { primary with
    rays := get_ray_stream primary.rays ptr capacity
    geom_id := ptr + offset 9 capacity
    prim_id := ptr + offset 10 capacity
    t := ptr + offset 11 capacity
    u := ptr + offset 12 capacity
    v := ptr + offset 13 capacity
    rnd := ptr + offset 14 capacity
    mis := ptr + offset 15 capacity
    contrib_r := ptr + offset 16 capacity
    contrib_g := ptr + offset 17 capacity
    contrib_b := ptr + offset 18 capacity
    depth := ptr + offset 19 capacity
    size := 0 }

/-- The function `get_secondary_stream(secondary, ptr, capacity)`. -/
def get_secondary_stream (secondary : SecondaryStream) (ptr capacity : Nat) : SecondaryStream :=
  { secondary with
    rays := get_ray_stream secondary.rays ptr capacity
    prim_id := ptr + offset 9 capacity
    color_r := ptr + offset 10 capacity
    color_g := ptr + offset 11 capacity
    color_b := ptr + offset 12 capacity
    size := 0 }

/-- The nine ray-core pointers in declaration order. -/
def RayStream.fields (r : RayStream) : List Nat :=
  [r.id, r.org_x, r.org_y, r.org_z, r.dir_x, r.dir_y, r.dir_z, r.tmin, r.tmax]

/-- The pointers of a primary stream in the order id, org_x, .., tmax, geom_id, prim_id, t,
u, v, rnd, mis, contrib_r, contrib_g, contrib_b, depth. -/
def PrimaryStream.fields (p : PrimaryStream) : List Nat :=
  p.rays.fields ++ [p.geom_id, p.prim_id, p.t, p.u, p.v, p.rnd, p.mis,
    p.contrib_r, p.contrib_g, p.contrib_b, p.depth]

/-- The pointers of a secondary stream in the order id, org_x, .., tmax, prim_id, color_r,
color_g, color_b. -/
def SecondaryStream.fields (s : SecondaryStream) : List Nat :=
  s.rays.fields ++ [s.prim_id, s.color_r, s.color_g, s.color_b]

/-! ## Files and the acceleration-structure loader (`load_bvh`) -/

/-- The state of a `std::ifstream` opened in binary mode: the bytes not yet consumed and the
two state bits the loader inspects (`badbit` is never raised by the operations used). -/
structure ifstream where
  rest : List Nat
  eofbit : Bool
  failbit : Bool
  deriving DecidableEq, Repr

/-- The member `good()`: no state bit is set. -/
def ifstream.good (s : ifstream) : Bool := !s.eofbit && !s.failbit

/-- The constructor `std::ifstream is(filename, std::ios::binary)` over a file system that
maps a path to its contents, or to `none` when it cannot be opened (then `failbit` is set). -/
def ifstream.openFile (fs : String → Option (List Nat)) (filename : String) : ifstream :=
  match fs filename with
  | some bytes => { rest := bytes, eofbit := false, failbit := false }
  | none => { rest := [], eofbit := false, failbit := true }

/-- The member `read(buf, n)`: on a stream that is not good nothing is read and `failbit`
is set; otherwise `n` bytes are taken, or, when fewer remain, all of them and both
`eofbit` and `failbit` are set. -/
def ifstream.read (s : ifstream) (n : Nat) : List Nat × ifstream :=
  if s.good then
    if n ≤ s.rest.length then (s.rest.take n, { s with rest := s.rest.drop n })
    else (s.rest, { rest := [], eofbit := true, failbit := true })
  else ([], { s with failbit := true })

/-- The little-endian value of the bytes stored at the start of a zero-initialised
`size_t`. -/
def le_value : List Nat → Nat
  | [] => 0
  | b :: bs => b + 256 * le_value bs

/-- The statement `is.read((char*)&x, sizeof(uint32_t))` for a `size_t x = 0`. -/
def read_u32 (s : ifstream) : Nat × ifstream :=
  let r := s.read 4
  (le_value r.1, r.2)

/-- Cuts `count` consecutive elements of `k` bytes out of a byte sequence. -/
def to_elems (k : Nat) : Nat → List Nat → List (List Nat)
  | 0, _ => []
  | count + 1, bytes => bytes.take k :: to_elems k count (bytes.drop k)

/-- Modelled from the spec: `IO::read_buffer` of `Buffer.h`, which is not part of the
sources at hand.  A length-prefixed array is a 32-bit byte length followed by that many
payload bytes; the payload is decoded into `length / sizeof(T)` elements of `sizeof(T)`
bytes each. -/
def read_buffer (s : ifstream) (elem_size : Nat) : List (List Nat) × ifstream :=
  let r := read_u32 s
  let p := r.2.read r.1
  (to_elems elem_size (r.1 / elem_size) p.1, p.2)

/-- Modelled from the spec: `IO::skip_buffer` of `Buffer.h`, which is not part of the
sources at hand.  The length prefix is read and the stream advances past the payload
without decoding it; a stream that is not good stays where it is. -/
def skip_buffer (s : ifstream) : ifstream :=
  let r := read_u32 s
  if r.2.good then { r.2 with rest := r.2.rest.drop r.1 } else r.2

/-- Array handle `anydsl::Array<T>` together with the contents of its storage; the element
count is the length of `elems`. -/
structure DeviceArray (α : Type) where
  dev : Int
  data : Nat
  elems : List α
  deriving DecidableEq, Repr

/-- The default-constructed array: no storage, zero elements. -/
def DeviceArray.empty {α : Type} : DeviceArray α := { dev := 0, data := 0, elems := [] }

/-- The member `size()` of an array with contents. -/
def DeviceArray.size {α : Type} (a : DeviceArray α) : Nat := a.elems.length

/-- The struct `Bvh<Node, Tri>`; an element is the sequence of its bytes. -/
structure Bvh where
  nodes : DeviceArray (List Nat)
  tris : DeviceArray (List Nat)
  deriving DecidableEq, Repr

/-- The value-initialised `Bvh<Node, Tri>{}`. -/
def Bvh.empty : Bvh := { nodes := DeviceArray.empty, tris := DeviceArray.empty }

/-- Severity of a log line (`L_INFO`, `L_ERROR`). -/
inductive LogLevel where
  | L_INFO
  | L_ERROR
  deriving DecidableEq, Repr

/-- One line written through `IG_LOG`: severity, message text and the file it names (empty
when the message names none). -/
structure LogLine where
  level : LogLevel
  text : String
  file : String
  deriving DecidableEq, Repr

/-- The overload `copy_to_device(dev, host)` for a `std::vector<T>`: fresh storage on `dev`
filled with the vector. -/
def copy_to_device {α : Type} (allocs : Nat) (dev : Int) (host : List α) :
    DeviceArray α × Nat :=
  let a := anydsl_alloc allocs
  ({ dev := dev, data := a.1, elems := host }, a.2)

/-- The `do { ... } while (!is.eof() && is)` loop of `load_bvh`.  `fuel` bounds the number of
iterations; `none` is returned only when it runs out. -/
def load_bvh_loop (sizeofNode sizeofTri : Nat) (dev : Int) (filename : String) :
    Nat → ifstream → Nat → List LogLine → Option (Bvh × Nat × List LogLine)
  | 0, _, _, _ => none
  | fuel + 1, s, allocs, log =>
    let r1 := read_u32 s
    let r2 := read_u32 r1.2
    if r1.1 = sizeofNode ∧ r2.1 = sizeofTri then
      let log1 := log ++ [{ level := .L_INFO, text := "Loaded BVH file", file := filename }]
      let nodes := read_buffer r2.2 sizeofNode
      let tris := read_buffer nodes.2 sizeofTri
      let n := copy_to_device allocs dev nodes.1
      let t := copy_to_device n.2 dev tris.1
      some ({ nodes := n.1, tris := t.1 }, t.2, log1)
    else
      let s3 := skip_buffer r2.2
      let s4 := skip_buffer s3
      if !s4.eofbit && !s4.failbit then
        load_bvh_loop sizeofNode sizeofTri dev filename fuel s4 allocs log
      else
        some (Bvh.empty, allocs,
          log ++ [{ level := .L_ERROR, text := "Invalid BVH file", file := "" }])

/-- The member `Interface::load_bvh<Node, Tri>(dev, filename)`; the two element sizes
`sizeof(Node)` and `sizeof(Tri)` are parameters.  Every iteration that continues has
consumed bytes, so one more iteration than the file has bytes is enough fuel. -/
def load_bvh (fs : String → Option (List Nat)) (sizeofNode sizeofTri : Nat)
    (dev : Int) (filename : String) (allocs : Nat) (log : List LogLine) :
    Option (Bvh × Nat × List LogLine) :=
  let s := ifstream.openFile fs filename
  let log1 := if s.failbit then
      log ++ [{ level := .L_ERROR, text := "Cannot open BVH", file := filename }]
    else log
  load_bvh_loop sizeofNode sizeofTri dev filename (s.rest.length + 1) s allocs log1

/-- What the loop returns: either the empty result with nothing allocated and the error line
logged, or two arrays in the next two fresh storages with the success line logged. -/
def LoadOutcome (dev : Int) (filename : String) (allocs : Nat) (log : List LogLine)
    (r : Bvh × Nat × List LogLine) : Prop :=
  r = (Bvh.empty, allocs, log ++ [{ level := .L_ERROR, text := "Invalid BVH file", file := "" }]) ∨
  ∃ n t, r = ({ nodes := { dev := dev, data := allocs + 1, elems := n },
                tris := { dev := dev, data := allocs + 2, elems := t } }, allocs + 2,
              log ++ [{ level := .L_INFO, text := "Loaded BVH file", file := filename }])

/-- One block of an acceleration-structure file: the two declared element sizes and the
elements of the node array and of the primitive array. -/
structure Block where
  node_size : Nat
  tri_size : Nat
  nodes : List (List Nat)
  tris : List (List Nat)
  deriving DecidableEq, Repr

/-- The four bytes of a 32-bit value, least significant first. -/
def le32 (n : Nat) : List Nat := [n % 256, n / 256 % 256, n / 65536 % 256, n / 16777216 % 256]

/-- The bytes of a length-prefixed array. -/
def encode_buffer (elems : List (List Nat)) : List Nat :=
  le32 elems.flatten.length ++ elems.flatten

/-- The bytes of one block:
`[u32 nodeElemSize][u32 primElemSize][length-prefixed node array][length-prefixed primitive array]`. -/
def encode_block (b : Block) : List Nat :=
  le32 b.node_size ++ le32 b.tri_size ++ encode_buffer b.nodes ++ encode_buffer b.tris

/-- The bytes of a file holding the given blocks in order. -/
def encode_file : List Block → List Nat
  | [] => []
  | b :: bs => encode_block b ++ encode_file bs

/-- A block is well formed when its sizes and byte lengths fit 32 bits and every element
has the declared number of bytes. -/
def Block.wf (b : Block) : Prop :=
  b.node_size < 2 ^ 32 ∧ b.tri_size < 2 ^ 32 ∧
  b.nodes.flatten.length < 2 ^ 32 ∧ b.tris.flatten.length < 2 ^ 32 ∧
  (∀ e ∈ b.nodes, e.length = b.node_size) ∧ (∀ e ∈ b.tris, e.length = b.tri_size)

/-- Whether a block declares the requested pair of element sizes. -/
def Block.declares (sizeofNode sizeofTri : Nat) (b : Block) : Bool :=
  decide (b.node_size = sizeofNode) && decide (b.tri_size = sizeofTri)

/-! ## The `Interface` state: per-device data, caches, film -/

/-- A `std::unordered_map` as an association list; a key occurs at most once. -/
abbrev Map (κ β : Type) := List (κ × β)

/-- The member `find(k)`: the mapped value, if the key is present. -/
def Map.find {κ β : Type} [DecidableEq κ] : Map κ β → κ → Option β
  | [], _ => none
  | (k1, v) :: m, k => if k1 = k then some v else Map.find m k

/-- The assignment `m[k] = v`: replaces the mapped value, or inserts the key. -/
def Map.set {κ β : Type} [DecidableEq κ] : Map κ β → κ → β → Map κ β
  | [], k, v => [(k, v)]
  | (k1, v1) :: m, k, v => if k1 = k then (k, v) :: m else (k1, v1) :: Map.set m k v

/-- The value `m[k]` refers to: the mapped value, or the default-constructed one. -/
def Map.get {κ β : Type} [DecidableEq κ] (m : Map κ β) (k : κ) (dflt : β) : β :=
  (Map.find m k).getD dflt

/-- The map after evaluating `m[k]`: an absent key is inserted with the default value. -/
def Map.touch {κ β : Type} [DecidableEq κ] (m : Map κ β) (k : κ) (dflt : β) : Map κ β :=
  match Map.find m k with
  | some _ => m
  | none => Map.set m k dflt

/-- A film element: a pixel component (floats are only copied and zero-filled here, so a
rational stands for the value), or `none` for storage that was never written. -/
abbrev Pixel := Option ℚ

/-- The tuple `Interface::DeviceImage`: device pixels, width, height (`int32_t`). -/
structure DeviceImage where
  pixels : DeviceArray ℚ
  width : Int
  height : Int
  deriving DecidableEq, Repr

/-- The struct `Interface::DeviceData`. -/
structure DeviceData where
  bvh2_tri1 : Map String Bvh
  bvh4_tri4 : Map String Bvh
  bvh8_tri4 : Map String Bvh
  buffers : Map String (DeviceArray Nat)
  images : Map String DeviceImage
  tmp_buffer : anydsl.Array
  first_primary : anydsl.Array
  second_primary : anydsl.Array
  secondary : anydsl.Array
  film_pixels : DeviceArray Pixel
  deriving DecidableEq, Repr

/-- The default-constructed `DeviceData`: empty caches, empty arrays. -/
def DeviceData.empty : DeviceData :=
  { bvh2_tri1 := [], bvh4_tri4 := [], bvh8_tri4 := [], buffers := [], images := [],
    tmp_buffer := anydsl.Array.empty, first_primary := anydsl.Array.empty,
    second_primary := anydsl.Array.empty, secondary := anydsl.Array.empty,
    film_pixels := DeviceArray.empty }

/-- The struct `Interface` with the state it reaches through globals: the `thread_local`
CPU stream arrays of the calling thread, the number of `anydsl_alloc` calls made so far and
the lines written to the log. -/
structure Interface where
  devices : Map Int DeviceData
  cpu_primary : anydsl.Array
  cpu_secondary : anydsl.Array
  host_pixels : DeviceArray Pixel
  film_width : Nat
  film_height : Nat
  allocs : Nat
  log : List LogLine
  deriving DecidableEq, Repr

/-- What the interface reads but never changes: the file system, the element sizes of the
node and primitive types (`bvh/BVH.h`, `mesh/TriMesh.h`) and the image decoder. -/
structure Env where
  fs : String → Option (List Nat)
  sizeofNode2 : Nat
  sizeofNode4 : Nat
  sizeofNode8 : Nat
  sizeofTri1 : Nat
  sizeofTri4 : Nat
  decode : String → List ℚ × Nat × Nat × Bool

/-- The expression `devices[dev]` as a value. -/
def Interface.device (I : Interface) (dev : Int) : DeviceData :=
  Map.get I.devices dev DeviceData.empty

/-- Writes `d` back as the entry `devices[dev]`. -/
def Interface.setDevice (I : Interface) (dev : Int) (d : DeviceData) : Interface :=
  { I with devices := Map.set I.devices dev d }

/-- The state after merely evaluating `devices[dev]`. -/
def Interface.touch (I : Interface) (dev : Int) : Interface :=
  { I with devices := Map.touch I.devices dev DeviceData.empty }

/-! ### Stream wrappers -/

/-- The member `cpu_primary_stream(size)`. -/
def cpu_primary_stream (I : Interface) (size : Nat) : anydsl.Array × Interface :=
  let r := resize_array I.allocs 0 I.cpu_primary size 20
  (r.1, { I with cpu_primary := r.1, allocs := r.2 })

/-- The member `cpu_secondary_stream(size)`. -/
def cpu_secondary_stream (I : Interface) (size : Nat) : anydsl.Array × Interface :=
  let r := resize_array I.allocs 0 I.cpu_secondary size 13
  (r.1, { I with cpu_secondary := r.1, allocs := r.2 })

/-- The member `gpu_first_primary_stream(dev, size)`. -/
def gpu_first_primary_stream (I : Interface) (dev : Int) (size : Nat) :
    anydsl.Array × Interface :=
  let d := I.device dev
  let r := resize_array I.allocs dev d.first_primary size 20
  (r.1, { I.setDevice dev { d with first_primary := r.1 } with allocs := r.2 })

/-- The member `gpu_second_primary_stream(dev, size)`. -/
def gpu_second_primary_stream (I : Interface) (dev : Int) (size : Nat) :
    anydsl.Array × Interface :=
  let d := I.device dev
  let r := resize_array I.allocs dev d.second_primary size 20
  (r.1, { I.setDevice dev { d with second_primary := r.1 } with allocs := r.2 })

/-- The member `gpu_secondary_stream(dev, size)`. -/
def gpu_secondary_stream (I : Interface) (dev : Int) (size : Nat) :
    anydsl.Array × Interface :=
  let d := I.device dev
  let r := resize_array I.allocs dev d.secondary size 13
  (r.1, { I.setDevice dev { d with secondary := r.1 } with allocs := r.2 })

/-- The member `gpu_tmp_buffer(dev, size)`. -/
def gpu_tmp_buffer (I : Interface) (dev : Int) (size : Nat) : anydsl.Array × Interface :=
  let d := I.device dev
  let r := resize_array I.allocs dev d.tmp_buffer size 1
  (r.1, { I.setDevice dev { d with tmp_buffer := r.1 } with allocs := r.2 })

/-! ### Cached loaders -/

/-- The member `load_bvh2_tri1(dev, filename)`. -/
def load_bvh2_tri1 (env : Env) (I : Interface) (dev : Int) (filename : String) :
    Option (Bvh × Interface) :=
  let I1 := I.touch dev
  let d := I1.device dev
  match Map.find d.bvh2_tri1 filename with
  | some b => some (b, I1)
  | none =>
    match load_bvh env.fs env.sizeofNode2 env.sizeofTri1 dev filename I1.allocs I1.log with
    | none => none
    | some (b, allocs, log) =>
      some (b, { I1.setDevice dev { d with bvh2_tri1 := Map.set d.bvh2_tri1 filename b } with
                 allocs := allocs, log := log })

/-- The member `load_bvh4_tri4(dev, filename)`. -/
def load_bvh4_tri4 (env : Env) (I : Interface) (dev : Int) (filename : String) :
    Option (Bvh × Interface) :=
  let I1 := I.touch dev
  let d := I1.device dev
  match Map.find d.bvh4_tri4 filename with
  | some b => some (b, I1)
  | none =>
    match load_bvh env.fs env.sizeofNode4 env.sizeofTri4 dev filename I1.allocs I1.log with
    | none => none
    | some (b, allocs, log) =>
      some (b, { I1.setDevice dev { d with bvh4_tri4 := Map.set d.bvh4_tri4 filename b } with
                 allocs := allocs, log := log })

/-- The member `load_bvh8_tri4(dev, filename)`. -/
def load_bvh8_tri4 (env : Env) (I : Interface) (dev : Int) (filename : String) :
    Option (Bvh × Interface) :=
  let I1 := I.touch dev
  let d := I1.device dev
  match Map.find d.bvh8_tri4 filename with
  | some b => some (b, I1)
  | none =>
    match load_bvh env.fs env.sizeofNode8 env.sizeofTri4 dev filename I1.allocs I1.log with
    | none => none
    | some (b, allocs, log) =>
      some (b, { I1.setDevice dev { d with bvh8_tri4 := Map.set d.bvh8_tri4 filename b } with
                 allocs := allocs, log := log })

/-- Modelled from the spec: `IO::read_buffer` of `Buffer.h` at element type `uint8_t`, where
the elements are the payload bytes themselves. -/
def read_bytes (s : ifstream) : List Nat × ifstream :=
  let r := read_u32 s
  r.2.read r.1

/-- The member `load_buffer(dev, filename)`. -/
def load_buffer (env : Env) (I : Interface) (dev : Int) (filename : String) :
    DeviceArray Nat × Interface :=
  let I1 := I.touch dev
  let d := I1.device dev
  match Map.find d.buffers filename with
  | some a => (a, I1)
  | none =>
    let s := ifstream.openFile env.fs filename
    let log1 := if s.failbit then
        I1.log ++ [{ level := .L_ERROR, text := "Cannot open buffer", file := filename }]
      else I1.log
    let vector := read_bytes s
    let log2 := log1 ++ [{ level := .L_INFO, text := "Loaded buffer", file := filename }]
    let a := copy_to_device I1.allocs dev vector.1
    (a.1, { I1.setDevice dev { d with buffers := Map.set d.buffers filename a.1 } with
            allocs := a.2, log := log2 })

/-- Conversion of a `size_t` to `int32_t`. -/
def toInt32 (n : Nat) : Int :=
  if n % 2 ^ 32 < 2 ^ 31 then ((n % 2 ^ 32 : Nat) : Int) else ((n % 2 ^ 32 : Nat) : Int) - 2 ^ 32

/-- The member `load_image(dev, filename)`.  The decoder `ImageRgba32::load` (`Image.h`) is
the environment's `decode`, giving the pixel floats, width, height and validity; the copy
reads `width * height * 4` floats, and `none` stands for a read past the decoded pixels. -/
def load_image (env : Env) (I : Interface) (dev : Int) (filename : String) :
    Option (DeviceImage × Interface) :=
  let I1 := I.touch dev
  let d := I1.device dev
  match Map.find d.images filename with
  | some a => some (a, I1)
  | none =>
    let img := env.decode filename
    let log1 := if !img.2.2.2 then
        I1.log ++ [{ level := .L_ERROR, text := "Cannot load image", file := filename }]
      else I1.log
    let log2 := log1 ++ [{ level := .L_INFO, text := "Loaded image", file := filename }]
    let n := (img.2.1 * img.2.2.1 * 4) % 2 ^ 64
    if n ≤ img.1.length then
      let a := copy_to_device I1.allocs dev (img.1.take n)
      let di : DeviceImage := { pixels := a.1, width := toInt32 img.2.1, height := toInt32 img.2.2.1 }
      some (di, { I1.setDevice dev { d with images := Map.set d.images filename di } with
                  allocs := a.2, log := log2 })
    else none

/-! ### Film -/

/-- The function `anydsl::copy(a, b)`: the `a.size()` elements of `a` overwrite the start of
`b`; `none` stands for a write past the end of `b`. -/
def copy {α : Type} (a b : List α) : Option (List α) :=
  if a.length ≤ b.length then some (a ++ b.drop a.length) else none

/-- The member `Interface::present(dev)`. -/
def Interface.present (I : Interface) (dev : Int) : Option Interface :=
  let I1 := I.touch dev
  match copy (I1.device dev).film_pixels.elems I1.host_pixels.elems with
  | none => none
  | some h => some { I1 with host_pixels := { I1.host_pixels with elems := h } }

/-- The function `ignis_present(dev)`. -/
def ignis_present (I : Interface) (dev : Int) : Option Interface :=
  if dev ≠ 0 then I.present dev else some I

/-- The film mirror of a device, empty when the device has none. -/
def Interface.mirror (I : Interface) (dev : Int) : List Pixel :=
  (I.device dev).film_pixels.elems

/-- The loop of `Interface::clear()` over the keys of `devices`: every device whose mirror
has elements receives a copy of the host buffer. -/
def clear_mirrors (host : List Pixel) : List Int → Map Int DeviceData → Option (Map Int DeviceData)
  | [], ds => some ds
  | k :: ks, ds =>
    let d := Map.get ds k DeviceData.empty
    if d.film_pixels.size ≠ 0 then
      match copy host d.film_pixels.elems with
      | none => none
      | some e =>
        clear_mirrors host ks
          (Map.set ds k { d with film_pixels := { d.film_pixels with elems := e } })
    else clear_mirrors host ks (Map.touch ds k DeviceData.empty)

/-- The member `Interface::clear()`. -/
def Interface.clear (I : Interface) : Option Interface :=
  let host := List.replicate I.host_pixels.elems.length (some (0 : ℚ))
  match clear_mirrors host (I.devices.map Prod.fst) I.devices with
  | none => none
  | some ds => some { I with host_pixels := { I.host_pixels with elems := host }, devices := ds }

/-- The function `ignis_get_film_data(dev, pixels, width, height)`: the three outputs and the
new state.  Fresh storage holds unwritten elements until the host buffer is copied in. -/
def ignis_get_film_data (I : Interface) (dev : Int) : Option ((Nat × Int × Int) × Interface) :=
  if dev ≠ 0 then
    let I1 := I.touch dev
    let d := I1.device dev
    if d.film_pixels.size = 0 then
      let film_size := (I1.film_width * I1.film_height * 3) % 2 ^ 64
      let a := anydsl_alloc I1.allocs
      match copy I1.host_pixels.elems (List.replicate film_size (none : Pixel)) with
      | none => none
      | some e =>
        let fp : DeviceArray Pixel := { dev := dev, data := a.1, elems := e }
        some ((fp.data, toInt32 I1.film_width, toInt32 I1.film_height),
          { I1.setDevice dev { d with film_pixels := fp } with allocs := a.2 })
    else some ((d.film_pixels.data, toInt32 I1.film_width, toInt32 I1.film_height), I1)
  else some ((I.host_pixels.data, toInt32 I.film_width, toInt32 I.film_height), I)

/-- The five asset caches. -/
inductive AssetKind where
  | bvh2_tri1
  | bvh4_tri4
  | bvh8_tri4
  | buffer
  | image
  deriving DecidableEq, Repr

/-- A cached asset of any kind. -/
inductive Asset where
  | bvh (b : Bvh)
  | buffer (a : DeviceArray Nat)
  | image (i : DeviceImage)
  deriving DecidableEq, Repr

/-- The storage ids an asset owns. -/
def Asset.storage : Asset → List Nat
  | .bvh b => [b.nodes.data, b.tris.data]
  | .buffer a => [a.data]
  | .image i => [i.pixels.data]

/-- The entry one device holds for a path in the cache of a kind, if any. -/
def DeviceData.cache (d : DeviceData) (k : AssetKind) (path : String) : Option Asset :=
  match k with
  | .bvh2_tri1 => (Map.find d.bvh2_tri1 path).map Asset.bvh
  | .bvh4_tri4 => (Map.find d.bvh4_tri4 path).map Asset.bvh
  | .bvh8_tri4 => (Map.find d.bvh8_tri4 path).map Asset.bvh
  | .buffer => (Map.find d.buffers path).map Asset.buffer
  | .image => (Map.find d.images path).map Asset.image

/-- The entry a device map holds for a (device, path), if any. -/
def cachedIn (ds : Map Int DeviceData) (k : AssetKind) (dev : Int) (path : String) :
    Option Asset :=
  match Map.find ds dev with
  | none => none
  | some d => d.cache k path

/-- The entry a cache holds for a (device, path), if any. -/
def Interface.cached (I : Interface) (k : AssetKind) (dev : Int) (path : String) : Option Asset :=
  cachedIn I.devices k dev path

/-- Every cache entry of the first device map is an entry of the second. -/
def CacheLe (ds ds1 : Map Int DeviceData) : Prop :=
  ∀ k dev path e, cachedIn ds k dev path = some e → cachedIn ds1 k dev path = some e

/-- What a request for an asset that is not cached does: the loader runs (the log grows),
the entry it returns is stored, every other entry stays, and the storage of the new
entry is null or allocated during this call. -/
def MissOutcome (k : AssetKind) (I : Interface) (dev : Int) (path : String)
    (r : Asset × Interface) : Prop :=
  r.2.cached k dev path = some r.1 ∧ CacheLe I.devices r.2.devices ∧
  I.allocs ≤ r.2.allocs ∧ I.log.length < r.2.log.length ∧
  (∀ p ∈ r.1.storage, p = 0 ∨ (I.allocs < p ∧ p ≤ r.2.allocs))

/-- The load operation of a kind: what it returns and the state it leaves. -/
def load (env : Env) (k : AssetKind) (I : Interface) (dev : Int) (path : String) :
    Option (Asset × Interface) :=
  match k with
  | .bvh2_tri1 => (load_bvh2_tri1 env I dev path).map (fun r => (Asset.bvh r.1, r.2))
  | .bvh4_tri4 => (load_bvh4_tri4 env I dev path).map (fun r => (Asset.bvh r.1, r.2))
  | .bvh8_tri4 => (load_bvh8_tri4 env I dev path).map (fun r => (Asset.bvh r.1, r.2))
  | .buffer => some (Asset.buffer (load_buffer env I dev path).1, (load_buffer env I dev path).2)
  | .image => (load_image env I dev path).map (fun r => (Asset.image r.1, r.2))

/-! ### Construction, stream views, kernel stores -/

/-- The function `setup_interface(width, height)`: a new `Interface` replaces the old one.  Its
host buffer is fresh storage of `width * height * 3` elements that the constructor does not
write; the device map is empty.  The `thread_local` stream arrays, the allocation count
and the log belong to the process and are carried over. -/
def setup_interface (cpu_primary cpu_secondary : anydsl.Array) (allocs : Nat)
    (log : List LogLine) (width height : Nat) : Interface :=
  let a := anydsl_alloc allocs
  { devices := [],
    cpu_primary := cpu_primary,
    cpu_secondary := cpu_secondary,
    host_pixels :=
      { dev := 0, data := a.1,
        elems := List.replicate ((width * height * 3) % 2 ^ 64) (none : Pixel) },
    film_width := width,
    film_height := height,
    allocs := a.2,
    log := log }

/-- A device kernel storing the value `v` at index `i` through the film pointer it was handed
for device `dev`. -/
def Interface.writeMirror (I : Interface) (dev : Int) (i : Nat) (v : ℚ) : Interface :=
  let d := I.device dev
  I.setDevice dev
    { d with film_pixels := { d.film_pixels with elems := d.film_pixels.elems.set i (some v) } }

/-- The function `ignis_cpu_get_primary_stream(primary, size)`; `addr` gives the address of a
storage, and `array.size() / 20` is the truncating `int64_t` division. -/
def ignis_cpu_get_primary_stream (addr : Nat → Nat) (I : Interface) (primary : PrimaryStream)
    (size : Int) : PrimaryStream × Interface :=
  let r := cpu_primary_stream I (toSizeT size)
  (get_primary_stream primary (addr r.1.data) (toSizeT (Int.tdiv r.1.size 20)), r.2)

/-- The function `ignis_cpu_get_secondary_stream(secondary, size)`. -/
def ignis_cpu_get_secondary_stream (addr : Nat → Nat) (I : Interface)
    (secondary : SecondaryStream) (size : Int) : SecondaryStream × Interface :=
  let r := cpu_secondary_stream I (toSizeT size)
  (get_secondary_stream secondary (addr r.1.data) (toSizeT (Int.tdiv r.1.size 13)), r.2)

/-- The function `ignis_gpu_get_tmp_buffer(dev, buf, size)`: the storage handed out. -/
def ignis_gpu_get_tmp_buffer (I : Interface) (dev : Int) (size : Int) : Nat × Interface :=
  let r := gpu_tmp_buffer I dev (toSizeT size)
  (r.1.data, r.2)

/-- The function `ignis_gpu_get_first_primary_stream(dev, primary, size)`. -/
def ignis_gpu_get_first_primary_stream (addr : Nat → Nat) (I : Interface) (dev : Int)
    (primary : PrimaryStream) (size : Int) : PrimaryStream × Interface :=
  let r := gpu_first_primary_stream I dev (toSizeT size)
  (get_primary_stream primary (addr r.1.data) (toSizeT (Int.tdiv r.1.size 20)), r.2)

/-- The function `ignis_gpu_get_second_primary_stream(dev, primary, size)`. -/
def ignis_gpu_get_second_primary_stream (addr : Nat → Nat) (I : Interface) (dev : Int)
    (primary : PrimaryStream) (size : Int) : PrimaryStream × Interface :=
  let r := gpu_second_primary_stream I dev (toSizeT size)
  (get_primary_stream primary (addr r.1.data) (toSizeT (Int.tdiv r.1.size 20)), r.2)

/-- The function `ignis_gpu_get_secondary_stream(dev, secondary, size)`. -/
def ignis_gpu_get_secondary_stream (addr : Nat → Nat) (I : Interface) (dev : Int)
    (secondary : SecondaryStream) (size : Int) : SecondaryStream × Interface :=
  let r := gpu_secondary_stream I dev (toSizeT size)
  (get_secondary_stream secondary (addr r.1.data) (toSizeT (Int.tdiv r.1.size 13)), r.2)

/-- A sequence of `resize_array` calls on one buffer with a fixed device and multiplier. -/
def requests (dev : Int) (m : Nat) : anydsl.Array × Nat → List Nat → anydsl.Array × Nat
  | st, [] => st
  | st, s :: ss => requests dev m (resize_array st.2 dev st.1 s m) ss

/-- Every mirror is absent or has the size of the host buffer. -/
def MirrorsFit (I : Interface) : Prop :=
  ∀ d, I.mirror d = [] ∨ (I.mirror d).length = I.host_pixels.elems.length

/-- The film array a device map holds for a device. -/
def filmOf (ds : Map Int DeviceData) (dev : Int) : DeviceArray Pixel :=
  (Map.get ds dev DeviceData.empty).film_pixels

/-- What a call that does not touch the film leaves as it was: the host buffer, the film
dimensions and every device's film array. -/
def FilmFrame (I I1 : Interface) : Prop :=
  I1.host_pixels = I.host_pixels ∧ I1.film_width = I.film_width ∧
  I1.film_height = I.film_height ∧ ∀ d, filmOf I1.devices d = filmOf I.devices d

/-! ## Bounding boxes (`runtime/math/BoundingBox.h`) -/

/-- A `Vector3f` with components in a linear order. -/
structure Vector3 (α : Type) where
  x : α
  y : α
  z : α
  deriving DecidableEq, Repr

/-- The member `cwiseMin`. -/
def Vector3.cwiseMin {α : Type} [LinearOrder α] (a b : Vector3 α) : Vector3 α :=
  { x := min a.x b.x, y := min a.y b.y, z := min a.z b.z }

/-- The member `cwiseMax`. -/
def Vector3.cwiseMax {α : Type} [LinearOrder α] (a b : Vector3 α) : Vector3 α :=
  { x := max a.x b.x, y := max a.y b.y, z := max a.z b.z }

/-- The struct `BoundingBox`: its two extreme points. -/
structure BoundingBox (α : Type) where
  min : Vector3 α
  max : Vector3 α
  deriving DecidableEq, Repr

/-- The member `overlap(bb)`: the box it leaves in `*this` and returns. -/
def BoundingBox.overlap {α : Type} [LinearOrder α] (a bb : BoundingBox α) : BoundingBox α :=
  { min := a.min.cwiseMax bb.min, max := a.max.cwiseMin bb.max }

/-- The member `isEmpty()`: `(min.array() > max.array()).any()`. -/
def BoundingBox.isEmpty {α : Type} [LinearOrder α] (a : BoundingBox α) : Bool :=
  decide (a.min.x > a.max.x) || decide (a.min.y > a.max.y) || decide (a.min.z > a.max.z)

/-- The member `isOverlapping(bb)`:
`(min.array() <= bb.max.array()).all() && (max.array() >= bb.min.array()).all()`. -/
def BoundingBox.isOverlapping {α : Type} [LinearOrder α] (a bb : BoundingBox α) : Bool :=
  (decide (a.min.x ≤ bb.max.x) && decide (a.min.y ≤ bb.max.y) && decide (a.min.z ≤ bb.max.z)) &&
  (decide (a.max.x ≥ bb.min.x) && decide (a.max.y ≥ bb.min.y) && decide (a.max.z ≥ bb.min.z))

/-- The scenario with a 4 x 4 film and device 1 from a fresh process: `setup_interface(4, 4)`,
optionally `clear()`, then `ignis_get_film_data(1)`, a kernel storing `a`, `b`, `c` at indices
0, 1, 2 of the mirror, `ignis_present(1)`, and `clear()`.  The result lists the states after
the first, second, fourth and fifth of these steps. -/
def film_scenario (a b c : ℚ) (clear_first : Bool) :
    Option (Interface × Interface × Interface × Interface) :=
  let S := setup_interface anydsl.Array.empty anydsl.Array.empty 0 [] 4 4
  match (if clear_first then S.clear else some S) with
  | none => none
  | some S0 =>
    match ignis_get_film_data S0 1 with
    | none => none
    | some r =>
      let S2 := ((r.2.writeMirror 1 0 a).writeMirror 1 1 b).writeMirror 1 2 c
      match ignis_present S2 1 with
      | none => none
      | some S3 =>
        match S3.clear with
        | none => none
        | some S4 => some (S0, r.2, S3, S4)

end Ignis

namespace Ignis

theorem land_roundMask (s : Nat) (hs : s < 2 ^ 64) : s &&& roundMask = 32 * (s / 32) := by
  apply Nat.eq_of_testBit_eq
  intro i
  have h31 : (31 : Nat) < 2 ^ 64 := by norm_num
  have hm : roundMask = 2 ^ 64 - (31 + 1) := by simp [roundMask]
  have h5 : (31 : Nat) = 2 ^ 5 - 1 := by norm_num
  rw [Nat.testBit_land, hm, Nat.testBit_two_pow_sub_succ h31, h5, Nat.testBit_two_pow_sub_one]
  have h32 : (32 : Nat) = 2 ^ 5 := by norm_num
  rw [h32, Nat.testBit_mul_pow_two]
  by_cases h : 5 ≤ i
  · have hlt : ¬ i < 5 := by omega
    simp only [hlt, h, decide_True, decide_False, Bool.not_false, Bool.and_true, Bool.true_and]
    rw [← Nat.shiftRight_eq_div_pow, Nat.testBit_shiftRight]
    have h5i : 5 + (i - 5) = i := by omega
    rw [h5i]
    by_cases h64 : i < 64
    · simp [h64]
    · have : s < 2 ^ i := lt_of_lt_of_le hs (Nat.pow_le_pow_right (by norm_num) (by omega))
      simp [h64, Nat.testBit_lt_two_pow this]
  · have hlt : i < 5 := by omega
    simp [hlt, h]

theorem capacity_eq (s : Nat) (hs : s < 2 ^ 63 - 32) :
    capacity s = ((32 * (s / 32 + 1) : Nat) : Int) := by
  have h64 : s < 2 ^ 64 := by omega
  unfold capacity toInt64
  rw [land_roundMask s h64]
  have e1 : (32 * (s / 32) + 32) % 2 ^ 64 % 2 ^ 64 = 32 * (s / 32 + 1) := by omega
  rw [e1]
  have e2 : 32 * (s / 32 + 1) < 2 ^ 63 := by omega
  rw [if_pos e2]

theorem roundUp32_of_not_dvd (s : Nat) (h : s % 32 ≠ 0) : roundUp32 s = 32 * (s / 32 + 1) := by
  unfold roundUp32; omega

theorem roundUp32_of_dvd (s : Nat) (h : s % 32 = 0) : roundUp32 s = s := by
  unfold roundUp32; omega

theorem toSizeT_natCast (n : Nat) (h : n < 2 ^ 64) : toSizeT (n : Int) = n := by
  unfold toSizeT
  have : ((n : Int) % 2 ^ 64) = (n : Int) := by omega
  rw [this]; simp

theorem toInt64_of_lt (n : Nat) (h : n < 2 ^ 63) : toInt64 n = (n : Int) := by
  unfold toInt64
  have e : n % 2 ^ 64 = n := by omega
  rw [e, if_pos h]

/-- What `resize_array` does when it allocates, for a size and multiplier whose product
fits `int64_t`. -/
theorem resize_array_grow (allocs : Nat) (dev : Int) (array : anydsl.Array) (s m : Nat)
    (hs : s < 2 ^ 63 - 32) (hn : 32 * (s / 32 + 1) * m < 2 ^ 63)
    (hlt : array.size < capacity s) :
    resize_array allocs dev array s m =
      ({ dev := dev, data := allocs + 1, size := ((32 * (s / 32 + 1) * m : Nat) : Int) },
        allocs + 1) := by
  unfold resize_array
  simp only [hlt, if_true, anydsl_alloc]
  rw [capacity_eq s hs, toSizeT_natCast _ (by omega)]
  have e : 32 * (s / 32 + 1) * m % 2 ^ 64 = 32 * (s / 32 + 1) * m := by omega
  rw [e, toInt64_of_lt _ hn]

/-- What `resize_array` does when the element count already reaches the capacity. -/
theorem resize_array_keep (allocs : Nat) (dev : Int) (array : anydsl.Array) (s m : Nat)
    (hge : capacity s ≤ array.size) :
    resize_array allocs dev array s m = (array, allocs) := by
  unfold resize_array
  have : ¬ array.size < capacity s := by omega
  simp only [this, if_false]

theorem toInt64_lt (n : Nat) : toInt64 n < 2 ^ 63 := by
  unfold toInt64
  split <;> omega

/-- C1 (counterexample): a request of exactly 32 is given capacity 64 by `resize_array`,
while `roundUp32 32` is 32; the same happens at 0, where the capacity is 32. -/
theorem capacity_at_32_is_64 :
    32 < 2 ^ 31 ∧ capacity 32 = 64 ∧ roundUp32 32 = 32 ∧
    (resize_array 0 0 anydsl.Array.empty 32 1).1.size = 64 ∧
    capacity 32 ≠ ((roundUp32 32 : Nat) : Int) ∧ capacity 0 ≠ ((roundUp32 0 : Nat) : Int) := by
  decide

/-- C1 (amended): for every requested size `s < 2 ^ 31` the capacity `resize_array` computes is
`32 * (s / 32 + 1)`, the smallest multiple of 32 strictly greater than `s`; it is
`roundUp32 s` when `s` is not a multiple of 32 and `roundUp32 s + 32` when it is. -/
theorem capacity_least_multiple_above (s : Nat) (hs : s < 2 ^ 31) :
    capacity s = ((32 * (s / 32 + 1) : Nat) : Int) ∧
    32 ∣ 32 * (s / 32 + 1) ∧ s < 32 * (s / 32 + 1) ∧
    (∀ k : Nat, s < 32 * k → 32 * (s / 32 + 1) ≤ 32 * k) ∧
    (s % 32 ≠ 0 → 32 * (s / 32 + 1) = roundUp32 s) ∧
    (s % 32 = 0 → 32 * (s / 32 + 1) = roundUp32 s + 32) := by
  refine ⟨capacity_eq s (by omega), Dvd.intro _ rfl, by omega, ?_, ?_, ?_⟩
  · intro k hk; omega
  · intro h; rw [roundUp32_of_not_dvd s h]
  · intro h; rw [roundUp32_of_dvd s h]; omega

theorem capacity_least_multiple_above_witness :
    capacity 33 = 64 ∧ roundUp32 33 = 64 ∧ capacity 64 = 96 ∧ roundUp32 64 = 64 := by
  have h1 := capacity_least_multiple_above 33 (by norm_num)
  have h2 := capacity_least_multiple_above 64 (by norm_num)
  refine ⟨by simpa using h1.1, by decide, by simpa using h2.1, by decide⟩

/-- C2 (counterexample): on the temporary buffer (multiplier 1) with capacity 32 a request of
64 allocates capacity 96, not `roundUp32 64 = 64`; on a primary buffer (multiplier 20) with
capacity 32, that is 640 elements, a request of 33 allocates nothing and the capacity
stays 32. -/
theorem request_above_capacity_not_roundUp32 :
    (roundUp32 (32 / 1) < 64 ∧
      resize_array 5 0 { dev := 0, data := 1, size := 32 } 64 1 =
        ({ dev := 0, data := 6, size := 96 }, 6) ∧ roundUp32 64 = 64) ∧
    (roundUp32 (640 / 20) < 33 ∧
      resize_array 5 0 { dev := 0, data := 1, size := 640 } 33 20 =
        ({ dev := 0, data := 1, size := 640 }, 5) ∧ roundUp32 33 = 64) := by
  decide

/-- C2 (amended): for every stream kind (multiplier 20, 13 or 1) and size `s < 2 ^ 31`, whenever
`resize_array` allocates (the element count is below the computed capacity) the new buffer
is fresh storage of `multiplier * 32 * (s / 32 + 1)` elements, so its per-field capacity is
`32 * (s / 32 + 1)`, a multiple of 32 and equal to `roundUp32 s` unless `s` is a multiple of
32; and on the temporary buffer (multiplier 1) every request `s > roundUp32 c` allocates. -/
theorem resize_array_new_buffer (allocs : Nat) (dev : Int) (array : anydsl.Array) (s m : Nat)
    (hs : s < 2 ^ 31) (hm : m = 20 ∨ m = 13 ∨ m = 1) :
    (array.size < capacity s →
      resize_array allocs dev array s m =
        ({ dev := dev, data := allocs + 1, size := ((32 * (s / 32 + 1) * m : Nat) : Int) },
          allocs + 1) ∧
      32 * (s / 32 + 1) * m / m = 32 * (s / 32 + 1) ∧ 32 ∣ 32 * (s / 32 + 1) ∧
      (s % 32 ≠ 0 → 32 * (s / 32 + 1) = roundUp32 s)) ∧
    (m = 1 → 0 ≤ array.size → roundUp32 (array.size.toNat / m) < s →
      array.size < capacity s) := by
  constructor
  · intro hlt
    have hn : 32 * (s / 32 + 1) * m < 2 ^ 63 := by
      rcases hm with h | h | h <;> subst h <;> omega
    have hm0 : 0 < m := by rcases hm with h | h | h <;> omega
    refine ⟨resize_array_grow allocs dev array s m (by omega) hn hlt,
      Nat.mul_div_cancel _ hm0, Dvd.intro _ rfl, ?_⟩
    intro h; rw [roundUp32_of_not_dvd s h]
  · intro h1 h0 hc
    subst h1
    rw [capacity_eq s (by omega)]
    unfold roundUp32 at hc
    omega

theorem resize_array_new_buffer_witness :
    resize_array 5 0 { dev := 0, data := 1, size := 32 } 70 1 =
      ({ dev := 0, data := 6, size := 96 }, 6) ∧
    resize_array 7 2 { dev := 2, data := 3, size := 640 } 700 20 =
      ({ dev := 2, data := 8, size := 14080 }, 8) := by
  have h1 := (resize_array_new_buffer 5 0 { dev := 0, data := 1, size := 32 } 70 1
    (by norm_num) (Or.inr (Or.inr rfl))).1 (by decide)
  have h2 := (resize_array_new_buffer 7 2 { dev := 2, data := 3, size := 640 } 700 20
    (by norm_num) (Or.inl rfl)).1 (by decide)
  exact ⟨by simpa using h1.1, by simpa using h2.1⟩

/-- C3 (counterexample): on the temporary buffer (multiplier 1), sizes 1 and then 32 satisfy
`s1 ≤ s2 ≤ roundUp32 s1`, yet the second request replaces the 32-element buffer by a fresh
one of 64; and a first request of 32 on a primary buffer gives per-field capacity 64, not
`roundUp32 32 = 32`. -/
theorem second_request_at_capacity_reallocates :
    (1 ≤ 32 ∧ 32 ≤ roundUp32 1 ∧
      resize_array 0 0 anydsl.Array.empty 1 1 = ({ dev := 0, data := 1, size := 32 }, 1) ∧
      resize_array 1 0 { dev := 0, data := 1, size := 32 } 32 1 =
        ({ dev := 0, data := 2, size := 64 }, 2)) ∧
    ((resize_array 0 0 anydsl.Array.empty 32 20).1.size / 20 = 64 ∧ roundUp32 32 = 32) := by
  decide

/-- C3 (amended): for every stream kind (multiplier 20, 13 or 1) and all sizes
`s1 ≤ s2 < 32 * (s1 / 32 + 1)`, requesting `s1` on an empty buffer and then `s2` returns the
buffer created by the first request, without allocating again; its per-field capacity is
`32 * (s1 / 32 + 1)`, which is `roundUp32 s1` when `s1` is not a multiple of 32. -/
theorem second_request_below_capacity_keeps_buffer (allocs : Nat) (dev : Int) (s1 s2 m : Nat)
    (hs : s1 < 2 ^ 31) (hm : m = 20 ∨ m = 13 ∨ m = 1)
    (h12 : s1 ≤ s2) (h2 : s2 < 32 * (s1 / 32 + 1)) :
    resize_array allocs dev anydsl.Array.empty s1 m =
      ({ dev := dev, data := allocs + 1, size := ((32 * (s1 / 32 + 1) * m : Nat) : Int) },
        allocs + 1) ∧
    resize_array (resize_array allocs dev anydsl.Array.empty s1 m).2 dev
        (resize_array allocs dev anydsl.Array.empty s1 m).1 s2 m =
      resize_array allocs dev anydsl.Array.empty s1 m ∧
    (resize_array allocs dev anydsl.Array.empty s1 m).1.size / (m : Int) =
      ((32 * (s1 / 32 + 1) : Nat) : Int) ∧
    (s1 % 32 ≠ 0 → 32 * (s1 / 32 + 1) = roundUp32 s1) := by
  have hn : 32 * (s1 / 32 + 1) * m < 2 ^ 63 := by
    rcases hm with h | h | h <;> subst h <;> omega
  have hm0 : 0 < m := by rcases hm with h | h | h <;> omega
  have hc1 := capacity_eq s1 (by omega)
  have hq : s2 / 32 = s1 / 32 := by omega
  have hc2 : capacity s2 = ((32 * (s1 / 32 + 1) : Nat) : Int) := by
    rw [capacity_eq s2 (by omega), hq]
  have h1 := resize_array_grow allocs dev anydsl.Array.empty s1 m (by omega) hn
    (by rw [hc1]; show (0 : Int) < ((32 * (s1 / 32 + 1) : Nat) : Int); omega)
  refine ⟨h1, ?_, ?_, ?_⟩
  · rw [h1]
    apply resize_array_keep
    rw [hc2]
    show ((32 * (s1 / 32 + 1) : Nat) : Int) ≤ ((32 * (s1 / 32 + 1) * m : Nat) : Int)
    exact_mod_cast Nat.le_mul_of_pos_right _ hm0
  · rw [h1]
    show ((32 * (s1 / 32 + 1) * m : Nat) : Int) / (m : Int) = _
    exact_mod_cast Nat.mul_div_cancel _ hm0
  · intro h; rw [roundUp32_of_not_dvd s1 h]

theorem second_request_below_capacity_keeps_buffer_witness :
    resize_array 1 3 { dev := 3, data := 1, size := 32 } 31 1 =
      ({ dev := 3, data := 1, size := 32 }, 1) := by
  have h := second_request_below_capacity_keeps_buffer 0 3 1 31 1 (by norm_num)
    (Or.inr (Or.inr rfl)) (by norm_num) (by norm_num)
  have e : resize_array 0 3 anydsl.Array.empty 1 1 = ({ dev := 3, data := 1, size := 32 }, 1) := by
    decide
  simpa [e] using h.2.1

/-- C4: a stream buffer never shrinks.  For every buffer, every multiplier `m ≥ 1` and every
requested size whose new element count `capacity * m` fits `int64_t`, the element count
after `resize_array` is at least the element count before, and when the element count
already reaches the computed capacity the buffer and the allocation count come back
unchanged. -/
theorem resize_array_never_shrinks (allocs : Nat) (dev : Int) (array : anydsl.Array)
    (s m : Nat) (h0 : 0 ≤ array.size) (hm : 1 ≤ m) (hn : capacity s * (m : Int) < 2 ^ 63) :
    array.size ≤ (resize_array allocs dev array s m).1.size ∧
    (capacity s ≤ array.size → resize_array allocs dev array s m = (array, allocs)) := by
  refine ⟨?_, resize_array_keep allocs dev array s m⟩
  by_cases hlt : array.size < capacity s
  · have hpos : 0 < capacity s := by omega
    obtain ⟨c, hc⟩ := Int.eq_ofNat_of_zero_le (le_of_lt hpos)
    have hcm : c * m < 2 ^ 63 := by
      have : ((c * m : Nat) : Int) < 2 ^ 63 := by push_cast; rw [← hc]; exact hn
      exact_mod_cast this
    have hcle : c ≤ c * m := Nat.le_mul_of_pos_right _ hm
    unfold resize_array
    simp only [hlt, if_true, anydsl_alloc]
    rw [hc, toSizeT_natCast _ (by omega)]
    have e : c * m % 2 ^ 64 = c * m := by omega
    rw [e, toInt64_of_lt _ hcm]
    rw [hc] at hlt
    have : (c : Int) ≤ ((c * m : Nat) : Int) := by exact_mod_cast hcle
    omega
  · rw [resize_array_keep allocs dev array s m (by omega)]

theorem resize_array_never_shrinks_witness :
    (640 : Int) ≤ (resize_array 4 0 { dev := 0, data := 1, size := 640 } 700 20).1.size ∧
    (capacity 700 ≤ 640 →
      resize_array 4 0 { dev := 0, data := 1, size := 640 } 700 20 =
        ({ dev := 0, data := 1, size := 640 }, 4)) :=
  resize_array_never_shrinks 4 0 { dev := 0, data := 1, size := 640 } 700 20
    (by decide) (by decide) (by decide)

theorem offset_eq (i c : Nat) (h : i * c < 2 ^ 64) : offset i c = i * c := by
  unfold offset; exact Nat.mod_eq_of_lt h

/-- Consecutive ranges `[i * c, (i + 1) * c)` with different indices share no element. -/
theorem ranges_disjoint (c i j x : Nat) (hij : i ≠ j)
    (hi : i * c ≤ x ∧ x < (i + 1) * c) (hj : j * c ≤ x ∧ x < (j + 1) * c) : False := by
  rcases Nat.lt_or_gt_of_ne hij with h | h
  · have : (i + 1) * c ≤ j * c := Nat.mul_le_mul_right c h
    omega
  · have : (j + 1) * c ≤ i * c := Nat.mul_le_mul_right c h
    omega

/-- The `n` ranges `[i * c, (i + 1) * c)` cover exactly `[0, n * c)`. -/
theorem ranges_cover (n c x : Nat) (hc : 0 < c) :
    x < n * c ↔ ∃ i, i < n ∧ i * c ≤ x ∧ x < (i + 1) * c := by
  constructor
  · intro hx
    refine ⟨x / c, (Nat.div_lt_iff_lt_mul hc).2 hx, Nat.div_mul_le_self x c, ?_⟩
    have := Nat.lt_succ_iff.2 (le_refl (x / c))
    exact (Nat.div_lt_iff_lt_mul hc).1 this
  · rintro ⟨i, hi, _, h2⟩
    have : (i + 1) * c ≤ n * c := Nat.mul_le_mul_right c hi
    omega

/-- C8: for every base pointer and every capacity `c` whose 20 fields fit the `size_t` range,
`get_primary_stream` sets the 20 field pointers id, org_x, org_y, org_z, dir_x, dir_y, dir_z,
tmin, tmax, geom_id, prim_id, t, u, v, rnd, mis, contrib_r, contrib_g, contrib_b, depth to
`ptr + i * c` for `i = 0..19` in this order and sets the size to 0; for `c > 0` the ranges
`[i * c, (i + 1) * c)` are pairwise disjoint and cover exactly `[0, 20 * c)`. -/
theorem get_primary_stream_layout (primary : PrimaryStream) (ptr c : Nat)
    (hc : 20 * c < 2 ^ 64) :
    (get_primary_stream primary ptr c).fields = (List.range 20).map (fun i => ptr + i * c) ∧
    (get_primary_stream primary ptr c).fields.length = 20 ∧
    (get_primary_stream primary ptr c).size = 0 ∧
    (0 < c →
      (∀ i j x, i < 20 → j < 20 → i ≠ j →
        ¬ ((i * c ≤ x ∧ x < (i + 1) * c) ∧ (j * c ≤ x ∧ x < (j + 1) * c))) ∧
      (∀ x, x < 20 * c ↔ ∃ i, i < 20 ∧ i * c ≤ x ∧ x < (i + 1) * c)) := by
  have ho : ∀ i, i < 20 → offset i c = i * c := fun i hi =>
    offset_eq i c (lt_of_le_of_lt (Nat.mul_le_mul_right c (le_of_lt hi)) hc)
  refine ⟨?_, rfl, rfl, ?_⟩
  · simp only [get_primary_stream, get_ray_stream, PrimaryStream.fields, RayStream.fields]
    rw [ho 0 (by norm_num), ho 1 (by norm_num), ho 2 (by norm_num), ho 3 (by norm_num),
      ho 4 (by norm_num), ho 5 (by norm_num), ho 6 (by norm_num), ho 7 (by norm_num),
      ho 8 (by norm_num), ho 9 (by norm_num), ho 10 (by norm_num), ho 11 (by norm_num),
      ho 12 (by norm_num), ho 13 (by norm_num), ho 14 (by norm_num), ho 15 (by norm_num),
      ho 16 (by norm_num), ho 17 (by norm_num), ho 18 (by norm_num), ho 19 (by norm_num)]
    rfl
  · intro hpos
    exact ⟨fun i j x _ _ hij h => ranges_disjoint c i j x hij h.1 h.2,
      fun x => ranges_cover 20 c x hpos⟩

theorem get_primary_stream_layout_witness :
    (get_primary_stream
        { rays := ⟨0, 0, 0, 0, 0, 0, 0, 0, 0⟩, geom_id := 0, prim_id := 0, t := 0, u := 0,
          v := 0, rnd := 0, mis := 0, contrib_r := 0, contrib_g := 0, contrib_b := 0,
          depth := 0, size := 7 } 1000 32).fields =
      [1000, 1032, 1064, 1096, 1128, 1160, 1192, 1224, 1256, 1288, 1320, 1352, 1384, 1416,
        1448, 1480, 1512, 1544, 1576, 1608] := by
  have h := (get_primary_stream_layout
    { rays := ⟨0, 0, 0, 0, 0, 0, 0, 0, 0⟩, geom_id := 0, prim_id := 0, t := 0, u := 0,
      v := 0, rnd := 0, mis := 0, contrib_r := 0, contrib_g := 0, contrib_b := 0,
      depth := 0, size := 7 } 1000 32 (by norm_num)).1
  rw [h]; decide

/-- C9: for every base pointer and every capacity `c` whose 13 fields fit the `size_t` range,
`get_secondary_stream` sets the 13 field pointers id, org_x, org_y, org_z, dir_x, dir_y,
dir_z, tmin, tmax, prim_id, color_r, color_g, color_b to `ptr + i * c` for `i = 0..12` in
this order and sets the size to 0; its nine ray-core pointers are the ones
`get_primary_stream` produces for the same base and capacity. -/
theorem get_secondary_stream_layout (secondary : SecondaryStream) (primary : PrimaryStream)
    (ptr c : Nat) (hc : 13 * c < 2 ^ 64) :
    (get_secondary_stream secondary ptr c).fields = (List.range 13).map (fun i => ptr + i * c) ∧
    (get_secondary_stream secondary ptr c).fields.length = 13 ∧
    (get_secondary_stream secondary ptr c).size = 0 ∧
    (get_secondary_stream secondary ptr c).rays = (get_primary_stream primary ptr c).rays ∧
    (get_secondary_stream secondary ptr c).fields.take 9 =
      (get_primary_stream primary ptr c).fields.take 9 := by
  have ho : ∀ i, i < 13 → offset i c = i * c := fun i hi =>
    offset_eq i c (lt_of_le_of_lt (Nat.mul_le_mul_right c (le_of_lt hi)) hc)
  refine ⟨?_, rfl, rfl, rfl, rfl⟩
  simp only [get_secondary_stream, get_ray_stream, SecondaryStream.fields, RayStream.fields]
  rw [ho 0 (by norm_num), ho 1 (by norm_num), ho 2 (by norm_num), ho 3 (by norm_num),
    ho 4 (by norm_num), ho 5 (by norm_num), ho 6 (by norm_num), ho 7 (by norm_num),
    ho 8 (by norm_num), ho 9 (by norm_num), ho 10 (by norm_num), ho 11 (by norm_num),
    ho 12 (by norm_num)]
  rfl

theorem get_secondary_stream_layout_witness :
    (get_secondary_stream
        { rays := ⟨0, 0, 0, 0, 0, 0, 0, 0, 0⟩, prim_id := 0, color_r := 0, color_g := 0,
          color_b := 0, size := 3 } 500 64).fields =
      [500, 564, 628, 692, 756, 820, 884, 948, 1012, 1076, 1140, 1204, 1268] := by
  have h := (get_secondary_stream_layout
    { rays := ⟨0, 0, 0, 0, 0, 0, 0, 0, 0⟩, prim_id := 0, color_r := 0, color_g := 0,
      color_b := 0, size := 3 }
    { rays := ⟨1, 1, 1, 1, 1, 1, 1, 1, 1⟩, geom_id := 0, prim_id := 0, t := 0, u := 0,
      v := 0, rnd := 0, mis := 0, contrib_r := 0, contrib_g := 0, contrib_b := 0,
      depth := 0, size := 7 } 500 64 (by norm_num)).1
  rw [h]; decide

/-! ### The acceleration-structure loader -/

theorem le_value_le32 (n : Nat) (h : n < 2 ^ 32) : le_value (le32 n) = n := by
  simp only [le32, le_value]
  omega

theorem le32_length (n : Nat) : (le32 n).length = 4 := rfl

theorem read_exact (p r : List Nat) :
    ifstream.read { rest := p ++ r, eofbit := false, failbit := false } p.length =
      (p, { rest := r, eofbit := false, failbit := false }) := by
  simp [ifstream.read, ifstream.good]

theorem read_u32_le32 (n : Nat) (r : List Nat) (h : n < 2 ^ 32) :
    read_u32 { rest := le32 n ++ r, eofbit := false, failbit := false } =
      (n, { rest := r, eofbit := false, failbit := false }) := by
  have h4 := read_exact (le32 n) r
  rw [le32_length] at h4
  simp only [read_u32, h4, le_value_le32 n h]

theorem skip_buffer_encode (elems : List (List Nat)) (r : List Nat)
    (h : elems.flatten.length < 2 ^ 32) :
    skip_buffer { rest := encode_buffer elems ++ r, eofbit := false, failbit := false } =
      { rest := r, eofbit := false, failbit := false } := by
  unfold skip_buffer encode_buffer
  rw [List.append_assoc, read_u32_le32 _ _ h]
  simp [ifstream.good]

theorem to_elems_flatten (k : Nat) (elems : List (List Nat))
    (h : ∀ e ∈ elems, e.length = k) : to_elems k elems.length elems.flatten = elems := by
  induction elems with
  | nil => rfl
  | cons e es ih =>
    have he : e.length = k := h e (List.mem_cons_self _ _)
    have hes : ∀ x ∈ es, x.length = k := fun x hx => h x (List.mem_cons_of_mem _ hx)
    simp only [List.length_cons, List.flatten_cons, to_elems]
    rw [← he, List.take_left, List.drop_left, he, ih hes]

theorem flatten_length_of_uniform (k : Nat) (elems : List (List Nat))
    (h : ∀ e ∈ elems, e.length = k) : elems.flatten.length = k * elems.length := by
  induction elems with
  | nil => rfl
  | cons e es ih =>
    have he : e.length = k := h e (List.mem_cons_self _ _)
    have hes : ∀ x ∈ es, x.length = k := fun x hx => h x (List.mem_cons_of_mem _ hx)
    simp only [List.flatten_cons, List.length_append, List.length_cons, he, ih hes]
    ring

theorem read_buffer_encode (k : Nat) (hk : 0 < k) (elems : List (List Nat)) (r : List Nat)
    (h : elems.flatten.length < 2 ^ 32) (hu : ∀ e ∈ elems, e.length = k) :
    read_buffer { rest := encode_buffer elems ++ r, eofbit := false, failbit := false } k =
      (elems, { rest := r, eofbit := false, failbit := false }) := by
  unfold read_buffer encode_buffer
  rw [List.append_assoc, read_u32_le32 _ _ h]
  simp only [read_exact]
  rw [flatten_length_of_uniform k elems hu, Nat.mul_div_cancel_left _ hk,
    to_elems_flatten k elems hu]

theorem encode_file_append (xs ys : List Block) :
    encode_file (xs ++ ys) = encode_file xs ++ encode_file ys := by
  induction xs with
  | nil => rfl
  | cons x xs ih => simp [encode_file, ih]

theorem encode_file_length_ge (xs : List Block) : xs.length ≤ (encode_file xs).length := by
  induction xs with
  | nil => simp [encode_file]
  | cons x xs ih =>
    simp only [encode_file, encode_block, encode_buffer, List.length_append, List.length_cons,
      le32_length]
    omega

/-- The loop passes over blocks that do not declare the requested pair and decodes the first
block that does. -/
theorem load_bvh_loop_match (sizeofNode sizeofTri : Nat) (hN : 0 < sizeofNode)
    (hT : 0 < sizeofTri) (dev : Int) (filename : String) (allocs : Nat) (log : List LogLine)
    (b : Block) (tail : List Nat) (hb : b.wf)
    (hd : b.declares sizeofNode sizeofTri = true) :
    ∀ (pre : List Block) (fuel : Nat), pre.length < fuel →
      (∀ x ∈ pre, x.wf) → (∀ x ∈ pre, x.declares sizeofNode sizeofTri = false) →
      load_bvh_loop sizeofNode sizeofTri dev filename fuel
        { rest := encode_file pre ++ (encode_block b ++ tail), eofbit := false,
          failbit := false } allocs log =
      some ({ nodes := { dev := dev, data := allocs + 1, elems := b.nodes },
              tris := { dev := dev, data := allocs + 2, elems := b.tris } }, allocs + 2,
            log ++ [{ level := .L_INFO, text := "Loaded BVH file", file := filename }]) := by
  intro pre
  induction pre with
  | nil =>
    intro fuel hf _ _
    obtain ⟨f, rfl⟩ : ∃ f, fuel = f + 1 := ⟨fuel - 1, by simp at hf; omega⟩
    obtain ⟨h1, h2, h3, h4, h5, h6⟩ := hb
    simp only [Block.declares, Bool.and_eq_true, decide_eq_true_eq] at hd
    obtain ⟨hd1, hd2⟩ := hd
    simp only [encode_file, List.nil_append, encode_block, List.append_assoc, load_bvh_loop]
    rw [read_u32_le32 _ _ h1]
    simp only []
    rw [read_u32_le32 _ _ h2]
    simp only [hd1, hd2, and_self, if_true]
    rw [read_buffer_encode sizeofNode hN b.nodes _ h3 (hd1 ▸ h5)]
    simp only []
    rw [read_buffer_encode sizeofTri hT b.tris _ h4 (hd2 ▸ h6)]
    simp [copy_to_device, anydsl_alloc]
  | cons x xs ih =>
    intro fuel hf hwf hnd
    obtain ⟨f, rfl⟩ : ∃ f, fuel = f + 1 := ⟨fuel - 1, by simp at hf; omega⟩
    have hx := hwf x (List.mem_cons_self _ _)
    obtain ⟨h1, h2, h3, h4, _, _⟩ := hx
    have hxd := hnd x (List.mem_cons_self _ _)
    simp only [Block.declares, Bool.and_eq_false_iff, decide_eq_false_iff_not] at hxd
    have hno : ¬ (x.node_size = sizeofNode ∧ x.tri_size = sizeofTri) := by
      rintro ⟨a, c⟩; rcases hxd with h | h
      · exact h a
      · exact h c
    simp only [encode_file, encode_block, List.append_assoc, load_bvh_loop]
    rw [read_u32_le32 _ _ h1]
    simp only []
    rw [read_u32_le32 _ _ h2]
    simp only [hno, if_false]
    rw [skip_buffer_encode _ _ h3, skip_buffer_encode _ _ h4]
    simp only [Bool.not_false, Bool.and_self, if_true]
    have := ih f (by simp at hf; omega) (fun y hy => hwf y (List.mem_cons_of_mem _ hy))
      (fun y hy => hnd y (List.mem_cons_of_mem _ hy))
    simpa [encode_block, List.append_assoc] using this

/-- On a stream whose `failbit` is set, or a good stream with nothing left, one iteration of
the loop finds no block and the loader gives up. -/
theorem load_bvh_loop_exhausted (sizeofNode sizeofTri : Nat) (hN : 0 < sizeofNode)
    (dev : Int) (filename : String) (allocs : Nat) (log : List LogLine) (fuel : Nat)
    (s : ifstream) (hs : s.failbit = true ∨ (s.rest = [] ∧ s.eofbit = false)) :
    load_bvh_loop sizeofNode sizeofTri dev filename (fuel + 1) s allocs log =
      some (Bvh.empty, allocs,
        log ++ [{ level := .L_ERROR, text := "Invalid BVH file", file := "" }]) := by
  have hne : ¬ (0 = sizeofNode) := by omega
  obtain ⟨rest, e, f⟩ := s
  rcases hs with h | ⟨h1, h2⟩
  · simp only at h
    subst h
    simp [load_bvh_loop, read_u32, ifstream.read, ifstream.good, le_value, skip_buffer, hne]
  · simp only at h1 h2
    subst h1 h2
    cases f <;>
      simp [load_bvh_loop, read_u32, ifstream.read, ifstream.good, le_value, skip_buffer, hne]

/-- The loop passes over a file none of whose blocks declares the requested pair and then
gives up. -/
theorem load_bvh_loop_no_match (sizeofNode sizeofTri : Nat) (hN : 0 < sizeofNode)
    (dev : Int) (filename : String) (allocs : Nat) (log : List LogLine) :
    ∀ (blocks : List Block) (fuel : Nat), blocks.length < fuel →
      (∀ x ∈ blocks, x.wf) → (∀ x ∈ blocks, x.declares sizeofNode sizeofTri = false) →
      load_bvh_loop sizeofNode sizeofTri dev filename fuel
        { rest := encode_file blocks, eofbit := false, failbit := false } allocs log =
      some (Bvh.empty, allocs,
        log ++ [{ level := .L_ERROR, text := "Invalid BVH file", file := "" }]) := by
  intro blocks
  induction blocks with
  | nil =>
    intro fuel hf _ _
    obtain ⟨f, rfl⟩ : ∃ f, fuel = f + 1 := ⟨fuel - 1, by simp at hf; omega⟩
    exact load_bvh_loop_exhausted sizeofNode sizeofTri hN dev filename allocs log f _
      (Or.inr ⟨rfl, rfl⟩)
  | cons x xs ih =>
    intro fuel hf hwf hnd
    obtain ⟨f, rfl⟩ : ∃ f, fuel = f + 1 := ⟨fuel - 1, by simp at hf; omega⟩
    have hx := hwf x (List.mem_cons_self _ _)
    obtain ⟨h1, h2, h3, h4, _, _⟩ := hx
    have hxd := hnd x (List.mem_cons_self _ _)
    simp only [Block.declares, Bool.and_eq_false_iff, decide_eq_false_iff_not] at hxd
    have hno : ¬ (x.node_size = sizeofNode ∧ x.tri_size = sizeofTri) := by
      rintro ⟨a, c⟩; rcases hxd with h | h
      · exact h a
      · exact h c
    simp only [encode_file, encode_block, List.append_assoc, load_bvh_loop]
    rw [read_u32_le32 _ _ h1]
    simp only []
    rw [read_u32_le32 _ _ h2]
    simp only [hno, if_false]
    rw [skip_buffer_encode _ _ h3, skip_buffer_encode _ _ h4]
    simp only [Bool.not_false, Bool.and_self, if_true]
    exact ih f (by simp at hf; omega) (fun y hy => hwf y (List.mem_cons_of_mem _ hy))
      (fun y hy => hnd y (List.mem_cons_of_mem _ hy))

/-- C5: for every file that is a sequence of blocks in which `b` is the first block declaring
`(sizeof(Node), sizeof(Tri))`, with `b` and the blocks before it well formed, `load_bvh`
returns exactly the node array and the primitive array of `b` in fresh device storage,
whatever the number and the payloads of the blocks before it and whatever follows it. -/
theorem load_bvh_first_match (fs : String → Option (List Nat)) (sizeofNode sizeofTri : Nat)
    (hN : 0 < sizeofNode) (hT : 0 < sizeofTri) (dev : Int) (filename : String)
    (allocs : Nat) (log : List LogLine) (pre : List Block) (b : Block) (post : List Block)
    (hpre : ∀ x ∈ pre, x.wf ∧ x.declares sizeofNode sizeofTri = false)
    (hb : b.wf ∧ b.declares sizeofNode sizeofTri = true)
    (hfile : fs filename = some (encode_file (pre ++ b :: post))) :
    load_bvh fs sizeofNode sizeofTri dev filename allocs log =
      some ({ nodes := { dev := dev, data := allocs + 1, elems := b.nodes },
              tris := { dev := dev, data := allocs + 2, elems := b.tris } }, allocs + 2,
            log ++ [{ level := .L_INFO, text := "Loaded BVH file", file := filename }]) := by
  unfold load_bvh ifstream.openFile
  rw [hfile]
  simp only [Bool.false_eq_true, if_false]
  have he : encode_file (pre ++ b :: post) =
      encode_file pre ++ (encode_block b ++ encode_file post) := by
    rw [encode_file_append]; rfl
  have hlen := encode_file_length_ge pre
  rw [he]
  exact load_bvh_loop_match sizeofNode sizeofTri hN hT dev filename allocs log b _ hb.1 hb.2
    pre _ (by rw [List.length_append]; omega) (fun x hx => (hpre x hx).1)
    (fun x hx => (hpre x hx).2)

/-- C6: when no block of a file of well-formed blocks declares `(sizeof(Node), sizeof(Tri))`
(the empty file included), and when the file cannot be opened, `load_bvh` returns, writes
an error line to the log, allocates nothing, and its result has a node array and a
primitive array of length zero. -/
theorem load_bvh_no_match (fs : String → Option (List Nat)) (sizeofNode sizeofTri : Nat)
    (hN : 0 < sizeofNode) (dev : Int) (filename : String) (allocs : Nat)
    (log : List LogLine) :
    (∀ blocks : List Block,
      (∀ x ∈ blocks, x.wf ∧ x.declares sizeofNode sizeofTri = false) →
      fs filename = some (encode_file blocks) →
      load_bvh fs sizeofNode sizeofTri dev filename allocs log =
        some (Bvh.empty, allocs,
          log ++ [{ level := .L_ERROR, text := "Invalid BVH file", file := "" }])) ∧
    (fs filename = some [] →
      load_bvh fs sizeofNode sizeofTri dev filename allocs log =
        some (Bvh.empty, allocs,
          log ++ [{ level := .L_ERROR, text := "Invalid BVH file", file := "" }])) ∧
    (fs filename = none →
      load_bvh fs sizeofNode sizeofTri dev filename allocs log =
        some (Bvh.empty, allocs,
          log ++ [{ level := .L_ERROR, text := "Cannot open BVH", file := filename },
                  { level := .L_ERROR, text := "Invalid BVH file", file := "" }])) ∧
    Bvh.empty.nodes.size = 0 ∧ Bvh.empty.tris.size = 0 := by
  refine ⟨?_, ?_, ?_, rfl, rfl⟩
  · intro blocks hbl hfile
    unfold load_bvh ifstream.openFile
    rw [hfile]
    simp only [Bool.false_eq_true, if_false]
    exact load_bvh_loop_no_match sizeofNode sizeofTri hN dev filename allocs log blocks _
      (by have := encode_file_length_ge blocks; omega) (fun x hx => (hbl x hx).1)
      (fun x hx => (hbl x hx).2)
  · intro hfile
    unfold load_bvh ifstream.openFile
    rw [hfile]
    simp only [Bool.false_eq_true, if_false]
    exact load_bvh_loop_exhausted sizeofNode sizeofTri hN dev filename allocs log _ _
      (Or.inr ⟨rfl, rfl⟩)
  · intro hfile
    unfold load_bvh ifstream.openFile
    rw [hfile]
    simp only [if_true, List.length_nil]
    rw [load_bvh_loop_exhausted sizeofNode sizeofTri hN dev filename allocs _ 0 _ (Or.inl rfl)]
    simp

theorem load_bvh_first_match_witness :
    load_bvh
        (fun _ => some (encode_file
          [{ node_size := 3, tri_size := 1, nodes := [[7, 8, 9]], tris := [[5]] },
           { node_size := 2, tri_size := 1, nodes := [[1, 2], [3, 4]], tris := [[9]] },
           { node_size := 2, tri_size := 1, nodes := [[6, 6]], tris := [] }]))
        2 1 7 "scene.bvh" 0 [] =
      some ({ nodes := { dev := 7, data := 1, elems := [[1, 2], [3, 4]] },
              tris := { dev := 7, data := 2, elems := [[9]] } }, 2,
            [{ level := .L_INFO, text := "Loaded BVH file", file := "scene.bvh" }]) :=
  load_bvh_first_match _ 2 1 (by decide) (by decide) 7 "scene.bvh" 0 []
    [{ node_size := 3, tri_size := 1, nodes := [[7, 8, 9]], tris := [[5]] }]
    { node_size := 2, tri_size := 1, nodes := [[1, 2], [3, 4]], tris := [[9]] }
    [{ node_size := 2, tri_size := 1, nodes := [[6, 6]], tris := [] }]
    (by simp [Block.wf, Block.declares]) (by simp [Block.wf, Block.declares]) rfl

theorem load_bvh_no_match_witness :
    load_bvh
        (fun _ => some (encode_file
          [{ node_size := 3, tri_size := 1, nodes := [[7, 8, 9]], tris := [[5]] }]))
        2 1 7 "scene.bvh" 4 [] =
      some (Bvh.empty, 4, [{ level := .L_ERROR, text := "Invalid BVH file", file := "" }]) ∧
    load_bvh (fun _ => none) 2 1 7 "scene.bvh" 4 [] =
      some (Bvh.empty, 4,
        [{ level := .L_ERROR, text := "Cannot open BVH", file := "scene.bvh" },
         { level := .L_ERROR, text := "Invalid BVH file", file := "" }]) :=
  ⟨(load_bvh_no_match _ 2 1 (by decide) 7 "scene.bvh" 4 []).1
      [{ node_size := 3, tri_size := 1, nodes := [[7, 8, 9]], tris := [[5]] }]
      (by simp [Block.wf, Block.declares]) rfl,
    (load_bvh_no_match (fun _ => none) 2 1 (by decide) 7 "scene.bvh" 4 []).2.2.1 rfl⟩

/-! ### The resource cache -/

theorem Map.find_set_same {κ β : Type} [DecidableEq κ] (m : Map κ β) (k : κ) (v : β) :
    Map.find (Map.set m k v) k = some v := by
  induction m with
  | nil => simp [Map.set, Map.find]
  | cons x m ih =>
    obtain ⟨k1, v1⟩ := x
    by_cases h : k1 = k
    · simp [Map.set, Map.find, h]
    · simp [Map.set, Map.find, h, ih]

theorem Map.find_set_ne {κ β : Type} [DecidableEq κ] (m : Map κ β) (k k0 : κ) (v : β)
    (hne : k0 ≠ k) : Map.find (Map.set m k v) k0 = Map.find m k0 := by
  induction m with
  | nil => simp [Map.set, Map.find, Ne.symm hne]
  | cons x m ih =>
    obtain ⟨k1, v1⟩ := x
    by_cases h : k1 = k
    · subst h
      simp [Map.set, Map.find, Ne.symm hne]
    · by_cases h0 : k1 = k0
      · subst h0
        simp [Map.set, Map.find, h]
      · simp [Map.set, Map.find, h, h0, ih]

theorem Map.touch_of_find {κ β : Type} [DecidableEq κ] (m : Map κ β) (k : κ) (v d : β)
    (h : Map.find m k = some v) : Map.touch m k d = m := by
  simp [Map.touch, h]

theorem Map.find_touch_same {κ β : Type} [DecidableEq κ] (m : Map κ β) (k : κ) (d : β) :
    Map.find (Map.touch m k d) k = some (Map.get m k d) := by
  unfold Map.touch Map.get
  cases h : Map.find m k with
  | none => simp [Map.find_set_same]
  | some v => simp [h]

theorem Map.find_touch_ne {κ β : Type} [DecidableEq κ] (m : Map κ β) (k k0 : κ) (d : β)
    (hne : k0 ≠ k) : Map.find (Map.touch m k d) k0 = Map.find m k0 := by
  unfold Map.touch
  cases h : Map.find m k with
  | none => simp [Map.find_set_ne _ _ _ _ hne]
  | some v => rfl

theorem Map.get_touch {κ β : Type} [DecidableEq κ] (m : Map κ β) (k : κ) (d : β) :
    Map.get (Map.touch m k d) k d = Map.get m k d := by
  unfold Map.get
  rw [Map.find_touch_same]
  rfl

theorem cache_empty (k : AssetKind) (path : String) : DeviceData.empty.cache k path = none := by
  cases k <;> rfl

theorem CacheLe.trans {a b c : Map Int DeviceData} (h1 : CacheLe a b) (h2 : CacheLe b c) :
    CacheLe a c := fun k dev path e h => h2 k dev path e (h1 k dev path e h)

theorem cachedIn_touch (ds : Map Int DeviceData) (dev : Int) (k : AssetKind) (dev0 : Int)
    (path : String) :
    cachedIn (Map.touch ds dev DeviceData.empty) k dev0 path = cachedIn ds k dev0 path := by
  unfold cachedIn
  by_cases h : dev0 = dev
  · subst h
    rw [Map.find_touch_same]
    unfold Map.get
    cases hf : Map.find ds dev0 with
    | none => simp [cache_empty]
    | some d => simp
  · rw [Map.find_touch_ne _ _ _ _ h]

theorem cachedIn_set_same (ds : Map Int DeviceData) (dev : Int) (d : DeviceData)
    (k : AssetKind) (path : String) :
    cachedIn (Map.set ds dev d) k dev path = d.cache k path := by
  unfold cachedIn
  rw [Map.find_set_same]

theorem cachedIn_set_ne (ds : Map Int DeviceData) (dev dev0 : Int) (d : DeviceData)
    (k : AssetKind) (path : String) (h : dev0 ≠ dev) :
    cachedIn (Map.set ds dev d) k dev0 path = cachedIn ds k dev0 path := by
  unfold cachedIn
  rw [Map.find_set_ne _ _ _ _ h]

theorem cachedIn_eq_get (ds : Map Int DeviceData) (dev : Int) (k : AssetKind) (path : String) :
    cachedIn ds k dev path = (Map.get ds dev DeviceData.empty).cache k path := by
  unfold cachedIn Map.get
  cases hf : Map.find ds dev with
  | none => simp [cache_empty]
  | some d => simp

/-- Replacing a device's data by data that keeps its cache entries keeps all entries. -/
theorem CacheLe.set (ds : Map Int DeviceData) (dev : Int) (d : DeviceData)
    (h : ∀ k path e, (Map.get ds dev DeviceData.empty).cache k path = some e →
      d.cache k path = some e) :
    CacheLe ds (Map.set ds dev d) := by
  intro k dev0 path e he
  by_cases hd : dev0 = dev
  · subst hd
    rw [cachedIn_set_same]
    rw [cachedIn_eq_get] at he
    exact h k path e he
  · rw [cachedIn_set_ne _ _ _ _ _ _ hd]; exact he

theorem CacheLe.touch (ds : Map Int DeviceData) (dev : Int) :
    CacheLe ds (Map.touch ds dev DeviceData.empty) := by
  intro k dev0 path e he
  rw [cachedIn_touch]; exact he

/-! ### Every run of the loader returns -/

theorem read_failbit (s : ifstream) (n : Nat) (h : (s.read n).2.failbit = false) :
    s.failbit = false ∧ (s.read n).2.rest.length + n = s.rest.length := by
  obtain ⟨rest, e, f⟩ := s
  unfold ifstream.read ifstream.good at h ⊢
  cases e <;> cases f <;> simp at h ⊢
  by_cases hn : n ≤ rest.length
  · simp [hn]
  · simp [hn] at h

theorem read_u32_failbit (s : ifstream) (h : (read_u32 s).2.failbit = false) :
    s.failbit = false ∧ (read_u32 s).2.rest.length + 4 = s.rest.length :=
  read_failbit s 4 h

theorem skip_buffer_failbit (s : ifstream) (h : (skip_buffer s).failbit = false) :
    s.failbit = false ∧ (skip_buffer s).rest.length + 4 ≤ s.rest.length := by
  unfold skip_buffer at h ⊢
  by_cases hg : (read_u32 s).2.good = true
  · simp only [hg, if_true] at h ⊢
    have := read_u32_failbit s h
    refine ⟨this.1, ?_⟩
    simp only [List.length_drop]
    omega
  · simp only [hg] at h ⊢
    have := read_u32_failbit s h
    exact ⟨this.1, by simp; omega⟩

theorem load_bvh_loop_total (sizeofNode sizeofTri : Nat) (dev : Int) (filename : String)
    (allocs : Nat) (log : List LogLine) :
    ∀ (fuel : Nat) (s : ifstream), s.rest.length < fuel →
      ∃ r, load_bvh_loop sizeofNode sizeofTri dev filename fuel s allocs log = some r ∧
        LoadOutcome dev filename allocs log r := by
  intro fuel
  induction fuel with
  | zero => intro s h; omega
  | succ f ih =>
    intro s hs
    unfold load_bvh_loop
    simp only []
    split
    · exact ⟨_, rfl, Or.inr ⟨_, _, rfl⟩⟩
    · split
      · rename_i hgood
        simp only [Bool.and_eq_true, Bool.not_eq_true'] at hgood
        have h4 := skip_buffer_failbit _ hgood.2
        have h3 := skip_buffer_failbit _ h4.1
        have h2 := read_u32_failbit _ h3.1
        have h1 := read_u32_failbit _ h2.1
        exact ih _ (by omega)
      · exact ⟨_, rfl, Or.inl rfl⟩

theorem load_bvh_facts (fs : String → Option (List Nat)) (sizeofNode sizeofTri : Nat)
    (dev : Int) (filename : String) (allocs : Nat) (log : List LogLine) :
    ∃ r, load_bvh fs sizeofNode sizeofTri dev filename allocs log = some r ∧
      allocs ≤ r.2.1 ∧ log.length < r.2.2.length ∧
      (∀ p ∈ [r.1.nodes.data, r.1.tris.data], p = 0 ∨ (allocs < p ∧ p ≤ r.2.1)) := by
  unfold load_bvh
  simp only []
  obtain ⟨r, hr, ho⟩ := load_bvh_loop_total sizeofNode sizeofTri dev filename allocs
    (if (ifstream.openFile fs filename).failbit = true then
      log ++ [{ level := .L_ERROR, text := "Cannot open BVH", file := filename }] else log)
    ((ifstream.openFile fs filename).rest.length + 1) (ifstream.openFile fs filename)
    (Nat.lt_succ_self _)
  refine ⟨r, hr, ?_⟩
  have hl : log.length ≤ (if (ifstream.openFile fs filename).failbit = true then
      log ++ [{ level := .L_ERROR, text := "Cannot open BVH", file := filename }]
      else log).length := by
    split <;> simp
  rcases ho with h | ⟨n, t, h⟩
  · subst h
    refine ⟨le_refl _, ?_, ?_⟩
    · simp only [List.length_append, List.length_singleton]; omega
    · intro p hp
      simp [Bvh.empty, DeviceArray.empty] at hp
      exact Or.inl hp
  · subst h
    refine ⟨by simp, ?_, ?_⟩
    · simp only [List.length_append, List.length_singleton]; omega
    · intro p hp
      simp at hp
      rcases hp with h | h <;> subst h <;> right <;> constructor <;> simp

theorem Interface.touch_eq_of_find (I : Interface) (dev : Int) (d : DeviceData)
    (h : Map.find I.devices dev = some d) : I.touch dev = I ∧ I.device dev = d := by
  unfold Interface.touch Interface.device Map.get
  rw [Map.touch_of_find _ _ _ _ h, h]
  exact ⟨rfl, rfl⟩

theorem Interface.device_touch (I : Interface) (dev : Int) :
    (I.touch dev).device dev = I.device dev := by
  unfold Interface.touch Interface.device
  exact Map.get_touch _ _ _

theorem Interface.cached_eq_device (I : Interface) (k : AssetKind) (dev : Int)
    (path : String) : I.cached k dev path = (I.device dev).cache k path :=
  cachedIn_eq_get _ _ _ _

/-- Inserting a key that was absent keeps every entry of a map. -/
theorem Map.find_set_of_absent {κ β : Type} [DecidableEq κ] (m : Map κ β) (k k0 : κ)
    (v v0 : β) (habs : Map.find m k = none) (h : Map.find m k0 = some v0) :
    Map.find (Map.set m k v) k0 = some v0 := by
  by_cases hk : k0 = k
  · subst hk; rw [habs] at h; cases h
  · rw [Map.find_set_ne _ _ _ _ hk]; exact h

/-- A request for an asset that is cached returns the cached entry and changes nothing. -/
theorem load_hit (env : Env) (k : AssetKind) (I : Interface) (dev : Int) (path : String)
    (e : Asset) (h : I.cached k dev path = some e) :
    load env k I dev path = some (e, I) := by
  unfold Interface.cached cachedIn at h
  cases hf : Map.find I.devices dev with
  | none => rw [hf] at h; cases h
  | some d =>
    rw [hf] at h
    simp only [] at h
    obtain ⟨ht, hd⟩ := I.touch_eq_of_find dev d hf
    cases k <;> simp only [DeviceData.cache, Option.map_eq_some'] at h <;>
      obtain ⟨x, hx, rfl⟩ := h
    · simp [load, load_bvh2_tri1, ht, hd, hx]
    · simp [load, load_bvh4_tri4, ht, hd, hx]
    · simp [load, load_bvh8_tri4, ht, hd, hx]
    · simp [load, load_buffer, ht, hd, hx]
    · simp [load, load_image, ht, hd, hx]

theorem CacheLe.touch_set (I : Interface) (dev : Int) (d : DeviceData)
    (h : ∀ k p e, ((I.touch dev).device dev).cache k p = some e → d.cache k p = some e) :
    CacheLe I.devices (Map.set (I.touch dev).devices dev d) :=
  CacheLe.trans (CacheLe.touch I.devices dev) (CacheLe.set _ dev d h)

theorem cache_le_set_bvh2_tri1 (d : DeviceData) (path : String) (b : Bvh)
    (habs : Map.find d.bvh2_tri1 path = none) :
    ∀ k p e, d.cache k p = some e →
      ({ d with bvh2_tri1 := Map.set d.bvh2_tri1 path b }).cache k p = some e := by
  intro k p e he
  cases k <;> try exact he
  simp only [DeviceData.cache, Option.map_eq_some'] at he ⊢
  obtain ⟨x, hx, rfl⟩ := he
  exact ⟨x, Map.find_set_of_absent _ _ _ _ _ habs hx, rfl⟩

theorem cache_le_set_bvh4_tri4 (d : DeviceData) (path : String) (b : Bvh)
    (habs : Map.find d.bvh4_tri4 path = none) :
    ∀ k p e, d.cache k p = some e →
      ({ d with bvh4_tri4 := Map.set d.bvh4_tri4 path b }).cache k p = some e := by
  intro k p e he
  cases k <;> try exact he
  simp only [DeviceData.cache, Option.map_eq_some'] at he ⊢
  obtain ⟨x, hx, rfl⟩ := he
  exact ⟨x, Map.find_set_of_absent _ _ _ _ _ habs hx, rfl⟩

theorem cache_le_set_bvh8_tri4 (d : DeviceData) (path : String) (b : Bvh)
    (habs : Map.find d.bvh8_tri4 path = none) :
    ∀ k p e, d.cache k p = some e →
      ({ d with bvh8_tri4 := Map.set d.bvh8_tri4 path b }).cache k p = some e := by
  intro k p e he
  cases k <;> try exact he
  simp only [DeviceData.cache, Option.map_eq_some'] at he ⊢
  obtain ⟨x, hx, rfl⟩ := he
  exact ⟨x, Map.find_set_of_absent _ _ _ _ _ habs hx, rfl⟩

theorem cache_le_set_buffers (d : DeviceData) (path : String) (b : DeviceArray Nat)
    (habs : Map.find d.buffers path = none) :
    ∀ k p e, d.cache k p = some e →
      ({ d with buffers := Map.set d.buffers path b }).cache k p = some e := by
  intro k p e he
  cases k <;> try exact he
  simp only [DeviceData.cache, Option.map_eq_some'] at he ⊢
  obtain ⟨x, hx, rfl⟩ := he
  exact ⟨x, Map.find_set_of_absent _ _ _ _ _ habs hx, rfl⟩

theorem load_miss_bvh2_tri1 (env : Env) (I : Interface) (dev : Int) (path : String)
    (h : I.cached .bvh2_tri1 dev path = none) :
    ∃ r, load env .bvh2_tri1 I dev path = some r ∧ MissOutcome .bvh2_tri1 I dev path r := by
  rw [I.cached_eq_device, ← I.device_touch] at h
  simp only [DeviceData.cache, Option.map_eq_none'] at h
  obtain ⟨r, hr, h1, h2, h3⟩ := load_bvh_facts env.fs env.sizeofNode2 env.sizeofTri1 dev path
    (I.touch dev).allocs (I.touch dev).log
  obtain ⟨b, a, l⟩ := r
  refine ⟨(Asset.bvh b, { (I.touch dev).setDevice dev
      { (I.touch dev).device dev with
        bvh2_tri1 := Map.set ((I.touch dev).device dev).bvh2_tri1 path b } with
      allocs := a, log := l }), ?_, ?_, ?_, h1, h2, h3⟩
  · simp only [load, load_bvh2_tri1, h, hr]; rfl
  · show cachedIn (Map.set _ dev _) _ dev path = _
    rw [cachedIn_set_same]
    simp [DeviceData.cache, Map.find_set_same]
  · exact CacheLe.touch_set I dev _ (cache_le_set_bvh2_tri1 _ path b h)

theorem load_miss_bvh4_tri4 (env : Env) (I : Interface) (dev : Int) (path : String)
    (h : I.cached .bvh4_tri4 dev path = none) :
    ∃ r, load env .bvh4_tri4 I dev path = some r ∧ MissOutcome .bvh4_tri4 I dev path r := by
  rw [I.cached_eq_device, ← I.device_touch] at h
  simp only [DeviceData.cache, Option.map_eq_none'] at h
  obtain ⟨r, hr, h1, h2, h3⟩ := load_bvh_facts env.fs env.sizeofNode4 env.sizeofTri4 dev path
    (I.touch dev).allocs (I.touch dev).log
  obtain ⟨b, a, l⟩ := r
  refine ⟨(Asset.bvh b, { (I.touch dev).setDevice dev
      { (I.touch dev).device dev with
        bvh4_tri4 := Map.set ((I.touch dev).device dev).bvh4_tri4 path b } with
      allocs := a, log := l }), ?_, ?_, ?_, h1, h2, h3⟩
  · simp only [load, load_bvh4_tri4, h, hr]; rfl
  · show cachedIn (Map.set _ dev _) _ dev path = _
    rw [cachedIn_set_same]
    simp [DeviceData.cache, Map.find_set_same]
  · exact CacheLe.touch_set I dev _ (cache_le_set_bvh4_tri4 _ path b h)

theorem load_miss_bvh8_tri4 (env : Env) (I : Interface) (dev : Int) (path : String)
    (h : I.cached .bvh8_tri4 dev path = none) :
    ∃ r, load env .bvh8_tri4 I dev path = some r ∧ MissOutcome .bvh8_tri4 I dev path r := by
  rw [I.cached_eq_device, ← I.device_touch] at h
  simp only [DeviceData.cache, Option.map_eq_none'] at h
  obtain ⟨r, hr, h1, h2, h3⟩ := load_bvh_facts env.fs env.sizeofNode8 env.sizeofTri4 dev path
    (I.touch dev).allocs (I.touch dev).log
  obtain ⟨b, a, l⟩ := r
  refine ⟨(Asset.bvh b, { (I.touch dev).setDevice dev
      { (I.touch dev).device dev with
        bvh8_tri4 := Map.set ((I.touch dev).device dev).bvh8_tri4 path b } with
      allocs := a, log := l }), ?_, ?_, ?_, h1, h2, h3⟩
  · simp only [load, load_bvh8_tri4, h, hr]; rfl
  · show cachedIn (Map.set _ dev _) _ dev path = _
    rw [cachedIn_set_same]
    simp [DeviceData.cache, Map.find_set_same]
  · exact CacheLe.touch_set I dev _ (cache_le_set_bvh8_tri4 _ path b h)

theorem load_miss_buffer (env : Env) (I : Interface) (dev : Int) (path : String)
    (h : I.cached .buffer dev path = none) :
    ∃ r, load env .buffer I dev path = some r ∧ MissOutcome .buffer I dev path r := by
  rw [I.cached_eq_device, ← I.device_touch] at h
  simp only [DeviceData.cache, Option.map_eq_none'] at h
  refine ⟨_, rfl, ?_, ?_, ?_, ?_, ?_⟩
  · simp only [load_buffer, h]
    show cachedIn (Map.set _ dev _) _ dev path = _
    rw [cachedIn_set_same]
    simp [DeviceData.cache, Map.find_set_same]
  · simp only [load_buffer, h]
    exact CacheLe.touch_set I dev _ (cache_le_set_buffers _ path _ h)
  · simp only [load_buffer, h, copy_to_device, anydsl_alloc]
    show I.allocs ≤ I.allocs + 1
    omega
  · simp only [load_buffer, h]
    show I.log.length < (_ ++ [_]).length
    rw [List.length_append]
    have : I.log.length ≤ (if (ifstream.openFile env.fs path).failbit = true then
        (I.touch dev).log ++
          [{ level := .L_ERROR, text := "Cannot open buffer", file := path }]
        else (I.touch dev).log).length := by
      split
      · rw [List.length_append]; exact Nat.le_add_right _ _
      · exact le_refl _
    simp only [List.length_singleton]
    omega
  · intro p hp
    simp only [load_buffer, h, copy_to_device, anydsl_alloc, Asset.storage,
      List.mem_singleton] at hp
    subst hp
    right
    simp only [load_buffer, h, copy_to_device, anydsl_alloc]
    show I.allocs < I.allocs + 1 ∧ I.allocs + 1 ≤ I.allocs + 1
    omega

/-- The acceleration-structure and buffer loads always return. -/
theorem load_returns (env : Env) (k : AssetKind) (I : Interface) (dev : Int) (path : String)
    (hk : k ≠ .image) : ∃ r, load env k I dev path = some r := by
  cases hc : I.cached k dev path with
  | some e => exact ⟨_, load_hit env k I dev path e hc⟩
  | none =>
    cases k
    · obtain ⟨r1, h1, _⟩ := load_miss_bvh2_tri1 env I dev path hc; exact ⟨r1, h1⟩
    · obtain ⟨r1, h1, _⟩ := load_miss_bvh4_tri4 env I dev path hc; exact ⟨r1, h1⟩
    · obtain ⟨r1, h1, _⟩ := load_miss_bvh8_tri4 env I dev path hc; exact ⟨r1, h1⟩
    · obtain ⟨r1, h1, _⟩ := load_miss_buffer env I dev path hc; exact ⟨r1, h1⟩
    · exact absurd rfl hk

theorem Interface.device_touch_any (I : Interface) (dev dev0 : Int) :
    (I.touch dev).device dev0 = I.device dev0 := by
  by_cases h : dev0 = dev
  · subst h; exact I.device_touch dev0
  · unfold Interface.touch Interface.device Map.get
    simp only []
    rw [Map.find_touch_ne _ _ _ _ h]

theorem copy_same_length {α : Type} (a b : List α) (h : a.length = b.length) :
    copy a b = some a := by
  unfold copy
  rw [if_pos (le_of_eq h), List.drop_of_length_le (le_of_eq h.symm), List.append_nil]

/-- The effect of `present` on a device whose mirror has the size of the host buffer. -/
theorem present_spec (I : Interface) (d : Int)
    (hsz : (I.mirror d).length = I.host_pixels.elems.length) :
    ∃ I1, I.present d = some I1 ∧ I1.host_pixels.elems = I.mirror d ∧
      (∀ d0, I1.mirror d0 = I.mirror d0) ∧
      I1.host_pixels.elems.length = I.host_pixels.elems.length := by
  unfold Interface.present
  simp only []
  have hm : ((I.touch d).device d).film_pixels.elems = I.mirror d := by
    rw [I.device_touch]; rfl
  have hh : (I.touch d).host_pixels = I.host_pixels := rfl
  rw [hm, hh, copy_same_length _ _ hsz]
  refine ⟨_, rfl, rfl, ?_, hsz⟩
  intro d0
  show ((I.touch d).device d0).film_pixels.elems = _
  rw [I.device_touch_any]
  rfl

/-- C10: for every nonzero device `d` whose mirror has the size of the host buffer (as every
allocated mirror has), `ignis_present d` makes the host pixel buffer equal to `d`'s mirror,
element for element, and leaves the mirror of every device unchanged; so when a second
such device presents afterwards the host buffer equals the second mirror; and
`ignis_present 0` changes nothing. -/
theorem ignis_present_copies_mirror (I : Interface) (d : Int) (hd : d ≠ 0)
    (hsz : (I.mirror d).length = I.host_pixels.elems.length) :
    (∃ I1, ignis_present I d = some I1 ∧ I1.host_pixels.elems = I.mirror d ∧
      (∀ d0, I1.mirror d0 = I.mirror d0) ∧
      (∀ d2, d2 ≠ 0 → (I.mirror d2).length = I.host_pixels.elems.length →
        ∃ I2, ignis_present I1 d2 = some I2 ∧ I2.host_pixels.elems = I.mirror d2 ∧
          (∀ d0, I2.mirror d0 = I.mirror d0))) ∧
    ignis_present I 0 = some I := by
  refine ⟨?_, by simp [ignis_present]⟩
  obtain ⟨I1, h1, h2, h3, h4⟩ := present_spec I d hsz
  refine ⟨I1, by simp only [ignis_present, hd, ne_eq, not_false_eq_true, if_true, h1],
    h2, h3, ?_⟩
  intro d2 hd2 hsz2
  obtain ⟨I2, g1, g2, g3, _⟩ := present_spec I1 d2 (by rw [h3 d2, h4]; exact hsz2)
  refine ⟨I2, by simp only [ignis_present, hd2, ne_eq, not_false_eq_true, if_true, g1], ?_, ?_⟩
  · rw [g2, h3 d2]
  · intro d0; rw [g3 d0, h3 d0]

theorem ignis_present_copies_mirror_witness :
    ∃ I1, ignis_present
        { devices := [(1, { DeviceData.empty with
            film_pixels := { dev := 1, data := 2, elems := [some 1, some (1 / 2), none] } })],
          cpu_primary := anydsl.Array.empty, cpu_secondary := anydsl.Array.empty,
          host_pixels := { dev := 0, data := 1, elems := [some 0, some 0, some 0] },
          film_width := 1, film_height := 1, allocs := 2, log := [] } 1 = some I1 ∧
      I1.host_pixels.elems = [some 1, some (1 / 2), none] := by
  obtain ⟨I1, h1, h2, _⟩ := (ignis_present_copies_mirror
    { devices := [(1, { DeviceData.empty with
        film_pixels := { dev := 1, data := 2, elems := [some 1, some (1 / 2), none] } })],
      cpu_primary := anydsl.Array.empty, cpu_secondary := anydsl.Array.empty,
      host_pixels := { dev := 0, data := 1, elems := [some 0, some 0, some 0] },
      film_width := 1, film_height := 1, allocs := 2, log := [] } 1 (by decide) rfl).1
  exact ⟨I1, h1, h2.trans rfl⟩

/-! ### The capacity expression and sequences of requests -/

/-- C18: for every size `s < 2 ^ 31` the capacity expression `(s & ~31) + 32` of `resize_array`
equals `32 * (s / 32 + 1)`; it is a multiple of 32 with `s < capacity ≤ s + 32`, it is the
smallest multiple of 32 strictly greater than `s`, and it is monotone non-decreasing
in `s`. -/
theorem capacity_formula (s : Nat) (hs : s < 2 ^ 31) :
    capacity s = ((32 * (s / 32 + 1) : Nat) : Int) ∧
    (32 : Int) ∣ capacity s ∧ (s : Int) < capacity s ∧ capacity s ≤ (s : Int) + 32 ∧
    (∀ k : Nat, s < 32 * k → capacity s ≤ ((32 * k : Nat) : Int)) ∧
    (∀ t : Nat, t ≤ s → capacity t ≤ capacity s) := by
  have hc := capacity_eq s (by omega)
  refine ⟨hc, ?_, ?_, ?_, ?_, ?_⟩
  · rw [hc]; exact ⟨((s / 32 + 1 : Nat) : Int), by push_cast; ring⟩
  · rw [hc]; omega
  · rw [hc]; omega
  · intro k hk; rw [hc]; omega
  · intro t ht
    rw [hc, capacity_eq t (by omega)]
    have : t / 32 ≤ s / 32 := Nat.div_le_div_right ht
    omega

theorem capacity_formula_witness :
    capacity 31 = 32 ∧ capacity 32 = 64 ∧ capacity 100 = 128 := by
  have h1 := (capacity_formula 31 (by norm_num)).1
  have h2 := (capacity_formula 32 (by norm_num)).1
  have h3 := (capacity_formula 100 (by norm_num)).1
  exact ⟨by simpa using h1, by simpa using h2, by simpa using h3⟩

theorem toSizeT_tdiv_mul (k m : Nat) (hm : 0 < m) (hk : 32 * k < 2 ^ 64) :
    toSizeT (Int.tdiv ((32 * k * m : Nat) : Int) (m : Int)) = 32 * k := by
  have h : Int.tdiv ((32 * k * m : Nat) : Int) (m : Int) = ((32 * k : Nat) : Int) := by
    rw [Int.tdiv_eq_ediv (by positivity) (by positivity)]
    exact_mod_cast Nat.mul_div_cancel (32 * k) hm
  rw [h, toSizeT_natCast _ hk]

/-- The element count after any sequence of requests stays `32 * k * m` for some `k`. -/
theorem requests_invariant (dev : Int) (m : Nat) (hm : m = 20 ∨ m = 13 ∨ m = 1) :
    ∀ (sizes : List Nat) (st : anydsl.Array × Nat), (∀ s ∈ sizes, s < 2 ^ 31) →
      (∃ k : Nat, k < 2 ^ 27 ∧ st.1.size = ((32 * k * m : Nat) : Int) ∧
        (st.1.size = 0 ∨ 0 < k)) →
      ∃ k : Nat, k < 2 ^ 27 ∧
        (requests dev m st sizes).1.size = ((32 * k * m : Nat) : Int) ∧
        ((requests dev m st sizes).1.size = 0 ∨ 0 < k) := by
  intro sizes
  induction sizes with
  | nil => intro st _ h; exact h
  | cons s ss ih =>
    intro st hs h
    have hs1 : s < 2 ^ 31 := hs s (List.mem_cons_self _ _)
    apply ih _ (fun x hx => hs x (List.mem_cons_of_mem _ hx))
    by_cases hlt : st.1.size < capacity s
    · have hn : 32 * (s / 32 + 1) * m < 2 ^ 63 := by
        rcases hm with h | h | h <;> subst h <;> omega
      rw [resize_array_grow st.2 dev st.1 s m (by omega) hn hlt]
      exact ⟨s / 32 + 1, by omega, rfl, Or.inr (by omega)⟩
    · rw [resize_array_keep st.2 dev st.1 s m (by omega)]
      exact h

/-- C16: after any sequence of `resize_array` calls on an initially empty buffer with a fixed
multiplier `m` (20, 13 or 1) and sizes below `2 ^ 31`, the element count is `m * (32 * k)`
with `k = 0` only while the count is 0; the per-field capacity `array.size() / m` that the
stream functions hand to the layout is exactly `32 * k`, so the division is exact, the
capacity is a multiple of 32 and the buffer holds exactly `m * capacity` elements. -/
theorem requests_size_multiple (allocs : Nat) (dev : Int) (m : Nat) (sizes : List Nat)
    (hm : m = 20 ∨ m = 13 ∨ m = 1) (hs : ∀ s ∈ sizes, s < 2 ^ 31) :
    ∃ k : Nat,
      (requests dev m (anydsl.Array.empty, allocs) sizes).1.size = ((m * (32 * k) : Nat) : Int) ∧
      ((requests dev m (anydsl.Array.empty, allocs) sizes).1.size = 0 ∨ 0 < k) ∧
      toSizeT (Int.tdiv (requests dev m (anydsl.Array.empty, allocs) sizes).1.size (m : Int)) =
        32 * k := by
  obtain ⟨k, hk, h1, h2⟩ := requests_invariant dev m hm sizes (anydsl.Array.empty, allocs) hs
    ⟨0, by norm_num, by simp [anydsl.Array.empty], Or.inl rfl⟩
  have hm0 : 0 < m := by rcases hm with h | h | h <;> omega
  refine ⟨k, ?_, h2, ?_⟩
  · rw [h1]; congr 1; ring
  · rw [h1]; exact toSizeT_tdiv_mul k m hm0 (by omega)

theorem requests_size_multiple_witness :
    ∃ k : Nat,
      (requests 0 20 (anydsl.Array.empty, 0) [1, 100, 700]).1.size =
        ((20 * (32 * k) : Nat) : Int) ∧
      ((requests 0 20 (anydsl.Array.empty, 0) [1, 100, 700]).1.size = 0 ∨ 0 < k) ∧
      toSizeT (Int.tdiv (requests 0 20 (anydsl.Array.empty, 0) [1, 100, 700]).1.size
        ((20 : Nat) : Int)) = 32 * k :=
  requests_size_multiple 0 0 20 [1, 100, 700] (Or.inl rfl) (by decide)

/-- C17 (the code at the failing input): on the CPU primary stream a request of size 1
allocates 640 elements, per-field capacity 32; the following request of size 100 finds
`640 ≥ 128` and keeps that buffer, so the view is laid out with capacity 32 although 100
slots per field were asked for, and the last field's 100 slots end at element
`19 * 32 + 100 = 708`, beyond the 640 elements the buffer has. -/
theorem second_larger_request_keeps_small_buffer :
    (requests 0 20 (anydsl.Array.empty, 0) [1, 100] =
        ({ dev := 0, data := 1, size := 640 }, 1) ∧
      capacity 100 = 128 ∧ Int.tdiv 640 20 = 32 ∧ ¬ ((100 : Int) ≤ Int.tdiv 640 20) ∧
      ¬ (19 * 32 + 100 ≤ 640)) ∧
    ((ignis_cpu_get_primary_stream (fun p => 1000 * p)
        (ignis_cpu_get_primary_stream (fun p => 1000 * p)
          (setup_interface anydsl.Array.empty anydsl.Array.empty 0 [] 0 0)
          { rays := ⟨0, 0, 0, 0, 0, 0, 0, 0, 0⟩, geom_id := 0, prim_id := 0, t := 0, u := 0,
            v := 0, rnd := 0, mis := 0, contrib_r := 0, contrib_g := 0, contrib_b := 0,
            depth := 0, size := 0 } 1).2
        { rays := ⟨0, 0, 0, 0, 0, 0, 0, 0, 0⟩, geom_id := 0, prim_id := 0, t := 0, u := 0,
          v := 0, rnd := 0, mis := 0, contrib_r := 0, contrib_g := 0, contrib_b := 0,
          depth := 0, size := 0 } 100).2.cpu_primary =
        { dev := 0, data := 2, size := 640 } ∧
      (ignis_cpu_get_primary_stream (fun p => 1000 * p)
        (ignis_cpu_get_primary_stream (fun p => 1000 * p)
          (setup_interface anydsl.Array.empty anydsl.Array.empty 0 [] 0 0)
          { rays := ⟨0, 0, 0, 0, 0, 0, 0, 0, 0⟩, geom_id := 0, prim_id := 0, t := 0, u := 0,
            v := 0, rnd := 0, mis := 0, contrib_r := 0, contrib_g := 0, contrib_b := 0,
            depth := 0, size := 0 } 1).2
        { rays := ⟨0, 0, 0, 0, 0, 0, 0, 0, 0⟩, geom_id := 0, prim_id := 0, t := 0, u := 0,
          v := 0, rnd := 0, mis := 0, contrib_r := 0, contrib_g := 0, contrib_b := 0,
          depth := 0, size := 0 } 100).1.fields =
        (List.range 20).map (fun i => 2000 + i * 32)) := by
  decide

/-! ### Bounding boxes -/

/-- C19: for bounding boxes over a linear order, when neither `a` nor `b` is empty the box
`a.overlap(b)` is empty exactly when `a.isOverlapping(b)` is false; and `overlap` is
commutative, `a.overlap(b)` and `b.overlap(a)` have the same `min` and `max`. -/
theorem overlap_empty_iff_not_overlapping {α : Type} [LinearOrder α] (a b : BoundingBox α)
    (ha : a.isEmpty = false) (hb : b.isEmpty = false) :
    ((a.overlap b).isEmpty = true ↔ a.isOverlapping b = false) ∧
    (a.overlap b).min = (b.overlap a).min ∧ (a.overlap b).max = (b.overlap a).max := by
  refine ⟨?_, ?_, ?_⟩
  · simp only [BoundingBox.isEmpty, Bool.or_eq_false_iff, decide_eq_false_iff_not, not_lt,
      gt_iff_lt] at ha hb
    obtain ⟨⟨ha1, ha2⟩, ha3⟩ := ha
    obtain ⟨⟨hb1, hb2⟩, hb3⟩ := hb
    simp only [BoundingBox.isEmpty, BoundingBox.overlap, Vector3.cwiseMax, Vector3.cwiseMin,
      BoundingBox.isOverlapping, Bool.or_eq_true, decide_eq_true_eq, gt_iff_lt, ge_iff_le,
      Bool.and_eq_false_iff, decide_eq_false_iff_not, not_le, min_lt_iff, lt_max_iff]
    constructor
    · rintro ((h | h) | h) <;> rcases h with (h | h) | (h | h) <;>
        first
        | exact absurd h (not_lt.2 ha1)
        | exact absurd h (not_lt.2 ha2)
        | exact absurd h (not_lt.2 ha3)
        | exact absurd h (not_lt.2 hb1)
        | exact absurd h (not_lt.2 hb2)
        | exact absurd h (not_lt.2 hb3)
        | tauto
    · tauto
  · simp only [BoundingBox.overlap, Vector3.cwiseMax, max_comm]
  · simp only [BoundingBox.overlap, Vector3.cwiseMin, min_comm]

theorem overlap_empty_iff_not_overlapping_witness :
    (BoundingBox.overlap
        ({ min := ⟨0, 0, 0⟩, max := ⟨2, 2, 2⟩ } : BoundingBox Int)
        ({ min := ⟨3, 1, 1⟩, max := ⟨4, 4, 4⟩ } : BoundingBox Int)).isEmpty = true ∧
    BoundingBox.isOverlapping
        ({ min := ⟨0, 0, 0⟩, max := ⟨2, 2, 2⟩ } : BoundingBox Int)
        ({ min := ⟨3, 1, 1⟩, max := ⟨4, 4, 4⟩ } : BoundingBox Int) = false :=
  ⟨by decide,
    (overlap_empty_iff_not_overlapping
      ({ min := ⟨0, 0, 0⟩, max := ⟨2, 2, 2⟩ } : BoundingBox Int)
      ({ min := ⟨3, 1, 1⟩, max := ⟨4, 4, 4⟩ } : BoundingBox Int)
      (by decide) (by decide)).1.1 (by decide)⟩

/-! ### Film: clear, film data, the invariant -/

theorem Map.get_set_same {κ β : Type} [DecidableEq κ] (m : Map κ β) (k : κ) (v d : β) :
    Map.get (Map.set m k v) k d = v := by
  unfold Map.get
  rw [Map.find_set_same]
  rfl

theorem Map.get_set_ne {κ β : Type} [DecidableEq κ] (m : Map κ β) (k k0 : κ) (v d : β)
    (h : k0 ≠ k) : Map.get (Map.set m k v) k0 d = Map.get m k0 d := by
  unfold Map.get
  rw [Map.find_set_ne _ _ _ _ h]

theorem Map.get_touch_any {κ β : Type} [DecidableEq κ] (m : Map κ β) (k k0 : κ) (d : β) :
    Map.get (Map.touch m k d) k0 d = Map.get m k0 d := by
  by_cases h : k0 = k
  · subst h; exact Map.get_touch m k0 d
  · unfold Map.get
    rw [Map.find_touch_ne _ _ _ _ h]

theorem Map.find_eq_none_of_not_mem {κ β : Type} [DecidableEq κ] (m : Map κ β) (k : κ)
    (h : k ∉ m.map Prod.fst) : Map.find m k = none := by
  induction m with
  | nil => rfl
  | cons x m ih =>
    obtain ⟨k1, v1⟩ := x
    simp only [List.map_cons, List.mem_cons, not_or] at h
    simp only [Map.find, if_neg (Ne.symm h.1)]
    exact ih h.2

theorem filmOf_set_same (ds : Map Int DeviceData) (k : Int) (d : DeviceData) :
    filmOf (Map.set ds k d) k = d.film_pixels := by
  unfold filmOf
  rw [Map.get_set_same]

theorem filmOf_set_ne (ds : Map Int DeviceData) (k k0 : Int) (d : DeviceData) (h : k0 ≠ k) :
    filmOf (Map.set ds k d) k0 = filmOf ds k0 := by
  unfold filmOf
  rw [Map.get_set_ne _ _ _ _ _ h]

theorem filmOf_touch (ds : Map Int DeviceData) (k k0 : Int) :
    filmOf (Map.touch ds k DeviceData.empty) k0 = filmOf ds k0 := by
  unfold filmOf
  rw [Map.get_touch_any]

theorem filmOf_mem_keys (ds : Map Int DeviceData) (d : Int)
    (h : (filmOf ds d).elems ≠ []) : d ∈ ds.map Prod.fst := by
  by_contra hn
  apply h
  unfold filmOf Map.get
  rw [Map.find_eq_none_of_not_mem ds d hn]
  rfl

/-- The loop of `clear` over any list of keys, when every mirror is absent or has the size of
the host buffer: it is defined, mirrors that are absent stay as they are, and every
mirror with elements whose key is in the list holds the host contents afterwards. -/
theorem clear_mirrors_spec (host : List Pixel) :
    ∀ (keys : List Int) (ds : Map Int DeviceData),
      (∀ d, (filmOf ds d).elems = [] ∨ (filmOf ds d).elems.length = host.length) →
      ∃ ds1, clear_mirrors host keys ds = some ds1 ∧
        (∀ d, (filmOf ds d).elems = [] → filmOf ds1 d = filmOf ds d) ∧
        (∀ d, d ∈ keys → (filmOf ds d).elems ≠ [] →
          filmOf ds1 d = { filmOf ds d with elems := host }) ∧
        (∀ d, filmOf ds1 d = filmOf ds d ∨ filmOf ds1 d = { filmOf ds d with elems := host }) := by
  intro keys
  induction keys with
  | nil =>
    intro ds _
    exact ⟨ds, rfl, fun _ _ => rfl, fun d hd _ => absurd hd (List.not_mem_nil d),
      fun _ => Or.inl rfl⟩
  | cons k ks ih =>
    intro ds hP
    by_cases hk : (filmOf ds k).elems = []
    · have hsz : ¬ (Map.get ds k DeviceData.empty).film_pixels.size ≠ 0 := by
        simp only [DeviceArray.size, ne_eq, not_not, List.length_eq_zero]; exact hk
      have hPt : ∀ d, (filmOf (Map.touch ds k DeviceData.empty) d).elems = [] ∨
          (filmOf (Map.touch ds k DeviceData.empty) d).elems.length = host.length := by
        intro d; rw [filmOf_touch]; exact hP d
      obtain ⟨ds1, h1, hA, hB, hC⟩ := ih _ hPt
      refine ⟨ds1, by simp only [clear_mirrors, if_neg hsz]; exact h1, ?_, ?_, ?_⟩
      · intro d hd
        rw [hA d (by rw [filmOf_touch]; exact hd), filmOf_touch]
      · intro d hmem hd
        rcases List.mem_cons.1 hmem with h | h
        · subst h; exact absurd hk hd
        · rw [hB d h (by rw [filmOf_touch]; exact hd), filmOf_touch]
      · intro d
        rcases hC d with h | h
        · left; rw [h, filmOf_touch]
        · right; rw [h, filmOf_touch]
    · have hsz : (Map.get ds k DeviceData.empty).film_pixels.size ≠ 0 := by
        simp only [DeviceArray.size, ne_eq, List.length_eq_zero]; exact hk
      have hlen : host.length = (Map.get ds k DeviceData.empty).film_pixels.elems.length := by
        rcases hP k with h | h
        · exact absurd h hk
        · exact h.symm
      have hcopy := copy_same_length host _ hlen
      have hPs : ∀ d, (filmOf (Map.set ds k
            { Map.get ds k DeviceData.empty with
              film_pixels := { (Map.get ds k DeviceData.empty).film_pixels with
                elems := host } }) d).elems = [] ∨
          (filmOf (Map.set ds k
            { Map.get ds k DeviceData.empty with
              film_pixels := { (Map.get ds k DeviceData.empty).film_pixels with
                elems := host } }) d).elems.length = host.length := by
        intro d
        by_cases hd : d = k
        · subst hd; rw [filmOf_set_same]; exact Or.inr rfl
        · rw [filmOf_set_ne _ _ _ _ hd]; exact hP d
      obtain ⟨ds1, h1, hA, hB, hC⟩ := ih _ hPs
      refine ⟨ds1, by simp only [clear_mirrors, if_pos hsz, hcopy]; exact h1, ?_, ?_, ?_⟩
      · intro d hd
        have hdk : d ≠ k := fun h => hk (h ▸ hd)
        rw [hA d (by rw [filmOf_set_ne _ _ _ _ hdk]; exact hd), filmOf_set_ne _ _ _ _ hdk]
      · intro d hmem hd
        by_cases hdk : d = k
        · subst hdk
          rcases hC d with h | h
          · rw [h, filmOf_set_same]; rfl
          · rw [h, filmOf_set_same]; rfl
        · rcases List.mem_cons.1 hmem with h | h
          · exact absurd h hdk
          · rw [hB d h (by rw [filmOf_set_ne _ _ _ _ hdk]; exact hd),
              filmOf_set_ne _ _ _ _ hdk]
      · intro d
        by_cases hdk : d = k
        · subst hdk
          right
          rcases hC d with h | h
          · rw [h, filmOf_set_same]; rfl
          · rw [h, filmOf_set_same]; rfl
        · rcases hC d with h | h
          · left; rw [h, filmOf_set_ne _ _ _ _ hdk]
          · right; rw [h, filmOf_set_ne _ _ _ _ hdk]

/-- The effect of `clear` in a state whose mirrors are absent or of the host buffer's size. -/
theorem clear_spec (I : Interface) (hfit : MirrorsFit I) :
    ∃ I1, I.clear = some I1 ∧
      I1.host_pixels =
        { I.host_pixels with
          elems := List.replicate I.host_pixels.elems.length (some (0 : ℚ)) } ∧
      I1.film_width = I.film_width ∧ I1.film_height = I.film_height ∧
      I1.allocs = I.allocs ∧
      (∀ d, I.mirror d = [] → filmOf I1.devices d = filmOf I.devices d) ∧
      (∀ d, I.mirror d ≠ [] →
        filmOf I1.devices d =
          { filmOf I.devices d with
            elems := List.replicate (I.mirror d).length (some (0 : ℚ)) }) := by
  obtain ⟨ds1, h1, hA, hB, _⟩ := clear_mirrors_spec
    (List.replicate I.host_pixels.elems.length (some (0 : ℚ))) (I.devices.map Prod.fst)
    I.devices (by
      intro d
      rcases hfit d with h | h
      · exact Or.inl h
      · right; rw [List.length_replicate]; exact h)
  refine ⟨{ I with
      host_pixels := { I.host_pixels with
        elems := List.replicate I.host_pixels.elems.length (some (0 : ℚ)) },
      devices := ds1 }, by simp only [Interface.clear, h1], rfl, rfl, rfl, rfl, ?_, ?_⟩
  · intro d hd; exact hA d hd
  · intro d hd
    have hlen : (I.mirror d).length = I.host_pixels.elems.length := by
      rcases hfit d with h | h
      · exact absurd h hd
      · exact h
    rw [hlen]
    exact hB d (filmOf_mem_keys I.devices d hd) hd

/-- C11: in every state whose mirrors, where allocated, have the size of the host buffer,
`clear()` is defined; afterwards every element of the host pixel buffer is 0, every mirror
that was allocated has the same storage and the same size as before with every element 0,
and every device that had no mirror still has none. -/
theorem clear_zeroes_film (I : Interface) (hfit : MirrorsFit I) :
    ∃ I1, I.clear = some I1 ∧
      I1.host_pixels.elems = List.replicate I.host_pixels.elems.length (some (0 : ℚ)) ∧
      (∀ x ∈ I1.host_pixels.elems, x = some (0 : ℚ)) ∧
      (∀ d, I.mirror d ≠ [] →
        (∀ x ∈ I1.mirror d, x = some (0 : ℚ)) ∧
        (I1.mirror d).length = (I.mirror d).length ∧
        (I1.device d).film_pixels.data = (I.device d).film_pixels.data) ∧
      (∀ d, I.mirror d = [] → I1.mirror d = []) := by
  obtain ⟨I1, h1, h2, _, _, _, hA, hB⟩ := clear_spec I hfit
  refine ⟨I1, h1, by rw [h2], ?_, ?_, ?_⟩
  · intro x hx
    rw [h2] at hx
    exact List.eq_of_mem_replicate hx
  · intro d hd
    have hf : filmOf I1.devices d = _ := hB d hd
    have hm : I1.mirror d = List.replicate (I.mirror d).length (some (0 : ℚ)) := by
      show (filmOf I1.devices d).elems = _
      rw [hf]
    refine ⟨?_, ?_, ?_⟩
    · intro x hx
      rw [hm] at hx
      exact List.eq_of_mem_replicate hx
    · rw [hm, List.length_replicate]
    · show (filmOf I1.devices d).data = (filmOf I.devices d).data
      rw [hf]
  · intro d hd
    show (filmOf I1.devices d).elems = []
    rw [hA d hd]
    exact hd

theorem clear_zeroes_film_witness :
    ∃ I1, Interface.clear
        { devices := [(1, { DeviceData.empty with
            film_pixels := { dev := 1, data := 2, elems := [some 1, none, some 3] } }),
            (2, DeviceData.empty)],
          cpu_primary := anydsl.Array.empty, cpu_secondary := anydsl.Array.empty,
          host_pixels := { dev := 0, data := 1, elems := [some 5, none, none] },
          film_width := 1, film_height := 1, allocs := 2, log := [] } = some I1 ∧
      I1.host_pixels.elems = [some 0, some 0, some 0] := by
  obtain ⟨I1, h1, h2, _⟩ := clear_zeroes_film
    { devices := [(1, { DeviceData.empty with
        film_pixels := { dev := 1, data := 2, elems := [some 1, none, some 3] } }),
        (2, DeviceData.empty)],
      cpu_primary := anydsl.Array.empty, cpu_secondary := anydsl.Array.empty,
      host_pixels := { dev := 0, data := 1, elems := [some 5, none, none] },
      film_width := 1, film_height := 1, allocs := 2, log := [] }
    (by
      intro d
      by_cases h1 : d = 1
      · subst h1; right; rfl
      · left
        by_cases h2 : d = 2
        · subst h2; rfl
        · simp [Interface.mirror, Interface.device, Map.get, Map.find, Ne.symm h1, Ne.symm h2,
            DeviceData.empty, DeviceArray.empty])
  exact ⟨I1, h1, h2.trans rfl⟩

theorem Interface.mirror_eq_filmOf (I : Interface) (d : Int) :
    I.mirror d = (filmOf I.devices d).elems := rfl

theorem filmFrame_refl (I : Interface) : FilmFrame I I := ⟨rfl, rfl, rfl, fun _ => rfl⟩

/-- C14 (counterexample): after `setup_interface(4, 4)` the host buffer has 48 elements, none
of which has been written, so they are not all zero; and in the scenario the elements 3..47
of the host buffer are still unwritten after `ignis_present(1)`. -/
theorem host_not_zero_after_setup :
    (setup_interface anydsl.Array.empty anydsl.Array.empty 0 [] 4 4).host_pixels.elems =
      List.replicate 48 none ∧
    ¬ (∀ x ∈ (setup_interface anydsl.Array.empty anydsl.Array.empty 0 [] 4
        4).host_pixels.elems, x = some (0 : ℚ)) ∧
    (∃ S0 S1 S3 S4, film_scenario 1 (1 / 2) (1 / 4) false = some (S0, S1, S3, S4) ∧
      S3.host_pixels.elems.drop 3 = List.replicate 45 none) := by
  refine ⟨rfl, ?_, ?_⟩
  · intro h
    have := h none (by
      show none ∈ List.replicate ((4 * 4 * 3) % 2 ^ 64) (none : Pixel)
      exact List.mem_replicate.2 ⟨by norm_num, rfl⟩)
    cases this
  · exact ⟨_, _, _, _, rfl, rfl⟩

/-- C14 (amended): with film 4 x 4 and one device, after `setup_interface(4, 4)` the host buffer
has 48 elements that were never written; `ignis_get_film_data(1)` then allocates a mirror of
48 elements equal to the host buffer's; after a kernel stores 1, 1/2, 1/4 at mirror[0..2],
`ignis_present(1)` gives host[0..2] = 1, 1/2, 1/4 with host[3..47] as they were; a following
`clear()` leaves the host buffer and the mirror all zero.  When `clear()` is called right
after `setup_interface(4, 4)`, the host buffer and the new mirror are 48 zeros and
host[3..47] are zero after the present. -/
theorem film_scenario_4x4 :
    (∃ S0 S1 S3 S4, film_scenario 1 (1 / 2) (1 / 4) false = some (S0, S1, S3, S4) ∧
      S0.host_pixels.elems = List.replicate 48 none ∧
      S1.mirror 1 = List.replicate 48 none ∧
      S3.host_pixels.elems =
        [some 1, some (1 / 2), some (1 / 4)] ++ List.replicate 45 none ∧
      S4.host_pixels.elems = List.replicate 48 (some 0) ∧
      S4.mirror 1 = List.replicate 48 (some 0)) ∧
    (∃ S0 S1 S3 S4, film_scenario 1 (1 / 2) (1 / 4) true = some (S0, S1, S3, S4) ∧
      S0.host_pixels.elems = List.replicate 48 (some 0) ∧
      S1.mirror 1 = List.replicate 48 (some 0) ∧
      S3.host_pixels.elems =
        [some 1, some (1 / 2), some (1 / 4)] ++ List.replicate 45 (some 0) ∧
      S4.host_pixels.elems = List.replicate 48 (some 0) ∧
      S4.mirror 1 = List.replicate 48 (some 0)) := by
  exact ⟨⟨_, _, _, _, rfl, rfl, rfl, rfl, rfl, rfl⟩, ⟨_, _, _, _, rfl, rfl, rfl, rfl, rfl, rfl⟩⟩

end Ignis
